import Mathlib

/-!
# Kirigami `DesktopIcon` (src/desktopicon.cpp)

A shallow embedding of the texture cache (`ImageTexturesCache`) and of the
policy layer of `DesktopIcon` (icon mode, source routing, tinting, paint-node
update, network reply handling), together with theorems about them.

Conventions of the embedding

* A `QHash` is an association list; `value`, `remove` and `insert` have the
  meaning of the Qt operations of the same name (`insert` is what
  `operator[]` followed by an assignment does).
* A texture is a handle (its index in the list of all textures ever created by
  `createTextureFromImage`); each texture carries its number of strong
  references, and a texture whose count is `0` has been destroyed, so that a
  weak pointer to it yields no strong reference.
* Toolkit calls whose result the code only passes on are kept symbolic
  (constructors of `Icon` and `Image`); toolkit calls whose result the code
  branches on are fields of `Toolkit`.
-/

namespace Kirigami

/-! ## QHash -/

/-- Association-list model of `QHash<K, V>`. -/
abbrev QHash (κ ν : Type) := List (κ × ν)

namespace QHash

variable {κ ν : Type} [DecidableEq κ]

/-- The call `hash.value(key)`: the stored value, or nothing (a default-constructed value). -/
def value : QHash κ ν → κ → Option ν
  | [], _ => none
  | (k, v) :: m, key => if k = key then some v else value m key

/-- The call `hash.remove(key)`. -/
def remove (m : QHash κ ν) (key : κ) : QHash κ ν :=
  m.filter (fun e => decide (e.1 ≠ key))

/-- The assignment `hash[key] = v`. -/
def insert (m : QHash κ ν) (key : κ) (v : ν) : QHash κ ν :=
  (key, v) :: remove m key

/-- The keys of a hash. -/
def keys (m : QHash κ ν) : List κ := m.map Prod.fst

end QHash

/-! ## Textures and the texture cache -/

/-- The deleter a `QSharedPointer<QSGTexture>` was constructed with: the default one
(line 118), or the lambda `cleanAndDelete` with its captured window and id (line 103). -/
inductive Deleter where
  | plain : Deleter
  | cleanAndDelete (window : Nat) (id : Int) : Deleter
  deriving DecidableEq, Repr

/-- One texture created by `window->createTextureFromImage`. -/
structure Texture where
  /-- The number of strong references; `0` once the texture has been deleted. -/
  strong : Nat
  /-- The result of `isAtlasTexture()`. -/
  atlas : Bool
  /-- The deleter of the shared pointer owning the texture. -/
  deleter : Deleter
  deriving DecidableEq, Repr

/-- The type `TexturesCache`: `QHash<qint64, QHash<QWindow*, QWeakPointer<QSGTexture>>>`. -/
abbrev TexturesCache := QHash Int (QHash Nat Nat)

/-- The struct `ImageTexturesCachePrivate` together with the textures the weak pointers refer to. -/
structure CacheState where
  cache : TexturesCache
  textures : List Texture
  deriving DecidableEq, Repr

/-- The flag `QQuickWindow::TextureCanUseAtlas` (`0x0008`). -/
def TextureCanUseAtlas : Nat := 8

/-- The test `options & QQuickWindow::TextureCanUseAtlas`. -/
def canUseAtlas (options : Nat) : Bool := options &&& TextureCanUseAtlas != 0

/-- Whether a texture handle refers to a texture that has not been deleted. -/
def isAlive (textures : List Texture) (h : Nat) : Bool :=
  match textures[h]? with
  | some t => decide (0 < t.strong)
  | none => false

/-- The call `texture->isAtlasTexture()`. -/
def isAtlasTexture (textures : List Texture) (h : Nat) : Bool :=
  match textures[h]? with
  | some t => t.atlas
  | none => false

/-- The call `weak.toStrongRef()` on a stored weak pointer: a handle when the texture is alive. -/
def toStrongRef (textures : List Texture) (weak : Option Nat) : Option Nat :=
  match weak with
  | some h => if isAlive textures h then some h else none
  | none => none

/-- Taking one more strong reference to a live texture (copying a `QSharedPointer`). -/
def retain (s : CacheState) (h : Nat) : CacheState :=
  match s.textures[h]? with
  | some t =>
    if 0 < t.strong then { s with textures := s.textures.set h { t with strong := t.strong + 1 } }
    else s
  | none => s

/-- The body of the lambda `cleanAndDelete` (lines 104-107) on the cache. -/
def cleanAndDelete (cache : TexturesCache) (window : Nat) (id : Int) : TexturesCache :=
  let textures := ((cache.value id).getD []).remove window
  if textures.isEmpty then cache.remove id else cache.insert id textures

/-- Dropping one strong reference; the last one runs the deleter of the texture. -/
def release (s : CacheState) (h : Nat) : CacheState :=
  match s.textures[h]? with
  | some t =>
    if t.strong = 0 then s
    else if t.strong = 1 then
      let textures := s.textures.set h { t with strong := 0 }
      match t.deleter with
      | Deleter.plain => { s with textures := textures }
      | Deleter.cleanAndDelete window id =>
        { cache := cleanAndDelete s.cache window id, textures := textures }
    else { s with textures := s.textures.set h { t with strong := t.strong - 1 } }
  | none => s

/-- The method `ImageTexturesCache::loadTexture(window, image, options)` (lines 97-122).
The image enters through its `cacheKey()`; `atlas1` and `atlas2` say whether the texture made
by the first and by the second `createTextureFromImage` call (when the call happens) is an
atlas texture. The result is the returned shared pointer and the state after the call, in
which the caller holds one strong reference to the returned texture. -/
def loadTexture (atlas1 atlas2 : Bool) (s : CacheState) (window : Nat) (id : Int)
    (options : Nat) : Nat × CacheState :=
  let hit := toStrongRef s.textures (((s.cache.value id).getD []).value window)
  let texture : Nat := hit.getD s.textures.length
  let s1 : CacheState :=
    match hit with
    | some h => retain s h
    | none =>
      { cache := s.cache.insert id (((s.cache.value id).getD []).insert window s.textures.length),
        textures := s.textures ++
          [{ strong := 1, atlas := atlas1, deleter := Deleter.cleanAndDelete window id }] }
  if !(canUseAtlas options) && isAtlasTexture s1.textures texture then
    let fresh := s1.textures.length
    let s2 : CacheState :=
      { s1 with textures := s1.textures ++
          [{ strong := 1, atlas := atlas2, deleter := Deleter.plain }] }
    (fresh, release s2 texture)
  else (texture, s1)

/-- The two-argument overload (line 124), which forwards with empty options. -/
def loadTexture2 (atlas1 atlas2 : Bool) (s : CacheState) (window : Nat) (id : Int) :
    Nat × CacheState :=
  loadTexture atlas1 atlas2 s window id 0

/-- The cache of a freshly constructed `ImageTexturesCache`. -/
def CacheState.empty : CacheState := { cache := [], textures := [] }

/-- The weak pointer the cache stores for an image id and a window, if any. -/
def entry (s : CacheState) (id : Int) (window : Nat) : Option Nat :=
  ((s.cache.value id).getD []).value window

/-- The runs of the cache from a state: any sequence of `loadTexture` calls, copies of a
returned shared pointer and destructions of a shared pointer. -/
inductive Steps : CacheState → CacheState → Prop where
  | refl (s : CacheState) : Steps s s
  | load {s s1 : CacheState} (atlas1 atlas2 : Bool) (window : Nat) (id : Int) (options : Nat) :
      Steps s s1 → Steps s (loadTexture atlas1 atlas2 s1 window id options).2
  | retain {s s1 : CacheState} (h : Nat) : Steps s s1 → Steps s (retain s1 h)
  | release {s s1 : CacheState} (h : Nat) : Steps s s1 → Steps s (release s1 h)

/-- The states the cache can be in: those reached from the empty cache. -/
def Reachable (s : CacheState) : Prop := Steps CacheState.empty s

/-- Every cache entry refers to a live texture whose deleter removes that very entry. -/
def EntriesAlive (s : CacheState) : Prop :=
  ∀ id tbl, (id, tbl) ∈ s.cache → ∀ w h, (w, h) ∈ tbl →
    ∃ t, s.textures[h]? = some t ∧ 0 < t.strong ∧ t.deleter = Deleter.cleanAndDelete w id

/-- No image id maps to an empty per-window table. -/
def NoEmptyTable (s : CacheState) : Prop :=
  ∀ id tbl, (id, tbl) ∈ s.cache → tbl ≠ []

/-- Each image id occurs once, and each window occurs once in each per-window table. -/
def UniqueKeys (s : CacheState) : Prop :=
  (QHash.keys s.cache).Nodup ∧ ∀ id tbl, (id, tbl) ∈ s.cache → (QHash.keys tbl).Nodup

/-- Every live texture that carries the `cleanAndDelete` deleter is the one stored in the
entry its deleter names. -/
def OwnersCached (s : CacheState) : Prop :=
  ∀ h t w id, s.textures[h]? = some t → 0 < t.strong →
    t.deleter = Deleter.cleanAndDelete w id → entry s id w = some h

/-- The inductive invariant of the cache. -/
def Inv (s : CacheState) : Prop :=
  EntriesAlive s ∧ NoEmptyTable s ∧ UniqueKeys s ∧ OwnersCached s

/-- A live texture whose deleter is `cleanAndDelete` for the given window and id. -/
def Cached (ts : List Texture) (h w : Nat) (id : Int) : Prop :=
  ∃ t, ts[h]? = some t ∧ 0 < t.strong ∧ t.deleter = Deleter.cleanAndDelete w id

/-- The textures of the second list extend those of the first one and agree with them on
the deleter and on the atlas flag. -/
def Stable (ts ts1 : List Texture) : Prop :=
  ∀ (h : Nat) (t : Texture), ts[h]? = some t →
    ∃ t1 : Texture, ts1[h]? = some t1 ∧ t1.deleter = t.deleter ∧ t1.atlas = t.atlas

/-- The bookkeeping properties of the cache: every entry holds a weak pointer to a texture
that is still alive, no image id maps to an empty per-window table, and each (image id,
window) pair occurs at most once. -/
def Bookkeeping (s : CacheState) : Prop :=
  (∀ id tbl, (id, tbl) ∈ s.cache → ∀ w h, (w, h) ∈ tbl → isAlive s.textures h = true) ∧
  (∀ id tbl, (id, tbl) ∈ s.cache → tbl ≠ []) ∧
  (QHash.keys s.cache).Nodup ∧
  (∀ id tbl, (id, tbl) ∈ s.cache → (QHash.keys tbl).Nodup)

/-! ## Toolkit values -/

/-- A `QColor`: invalid, or an RGB colour with alpha. -/
inductive Color where
  | invalid : Color
  | rgba (r g b a : Nat) : Color
  deriving DecidableEq, Repr

/-- The method `QColor::isValid()`. -/
def Color.isValid : Color → Bool
  | Color.invalid => false
  | Color.rgba _ _ _ _ => true

/-- The colour `Qt::transparent`. -/
def Color.transparent : Color := Color.rgba 0 0 0 0

/-- The type `QIcon::Mode`. -/
inductive Mode where
  | Normal | Disabled | Active | Selected
  deriving DecidableEq, Repr

/-- A `QSize` (the C++ `int` components are taken as integers). -/
structure QSize where
  wd : Int
  ht : Int
  deriving DecidableEq, Repr

/-- A `QRect`, stored as Qt stores it: the left, top, right and bottom pixel. -/
structure QRect where
  x1 : Int
  y1 : Int
  x2 : Int
  y2 : Int
  deriving DecidableEq, Repr

/-- The constructor `QRect(QPoint(0, 0), size)`. -/
def QRect.ofSize (size : QSize) : QRect :=
  { x1 := 0, y1 := 0, x2 := size.wd - 1, y2 := size.ht - 1 }

/-- The methods `QRect::width()` and `QRect::height()`. -/
def QRect.size (r : QRect) : QSize := { wd := r.x2 - r.x1 + 1, ht := r.y2 - r.y1 + 1 }

/-- The method `QRect::center()`, with the truncating division of C++. -/
def QRect.center (r : QRect) : Int × Int :=
  (Int.tdiv (r.x1 + r.x2) 2, Int.tdiv (r.y1 + r.y2) 2)

/-- The method `QRect::moveCenter(p)`. -/
def QRect.moveCenter (r : QRect) (p : Int × Int) : QRect :=
  let w := r.x2 - r.x1
  let h := r.y2 - r.y1
  let x1 := p.1 - Int.tdiv w 2
  let y1 := p.2 - Int.tdiv h 2
  { x1 := x1, y1 := y1, x2 := x1 + w, y2 := y1 + h }

/-- The call `size.scaled(s, Qt::KeepAspectRatio)` of `QSize`. -/
def QSize.scaled (size s : QSize) : QSize :=
  if size.wd = 0 ∨ size.ht = 0 then s
  else
    let rw := Int.tdiv (s.ht * size.wd) size.ht
    if rw ≤ s.wd then { wd := rw, ht := s.ht }
    else { wd := s.wd, ht := Int.tdiv (s.wd * size.ht) size.wd }

/-- Whether the second rectangle contains the first one. -/
def QRect.within (r outer : QRect) : Prop :=
  outer.x1 ≤ r.x1 ∧ outer.y1 ≤ r.y1 ∧ r.x2 ≤ outer.x2 ∧ r.y2 ≤ outer.y2

/-- The call `s.startsWith(QLatin1String(p))`. -/
def startsWith (s p : String) : Bool := p.toList.isPrefixOf s.toList

/-- The call `s.endsWith(QLatin1String(p))`. -/
def endsWith (s p : String) : Bool := p.toList.isSuffixOf s.toList

/-- The call `s.contains(QLatin1String("/"))`. -/
def containsSlash (s : String) : Bool := s.toList.contains (Char.ofNat 47)

/-- The call `s.mid(n)`, which is also what `s.remove(0, n)` leaves. -/
def mid (s : String) (n : Nat) : String := String.mk (s.toList.drop n)

/-- A `QIcon`, by the call that made it. -/
inductive Icon where
  /-- The icon `QIcon()`. -/
  | null : Icon
  /-- The icon `QIcon(fileName)`. -/
  | fromFile (fileName : String) : Icon
  /-- The icon `m_theme->iconFromTheme(name, color)`. -/
  | fromPlatformTheme (name : String) (color : Color) : Icon
  /-- The icon `QIcon::fromTheme(name)`. -/
  | fromTheme (name : String) : Icon
  /-- An icon held by the source variant. -/
  | held (key : Nat) : Icon
  deriving DecidableEq, Repr

/-- A `QImage`, by the calls that made it. -/
inductive Image where
  /-- The image `QImage()`. -/
  | null : Image
  /-- An image, pixmap or bitmap held by the source variant. -/
  | held (key : Int) : Image
  /-- The image `QImage(size, QImage::Format_Alpha8)` after `fill(color)`. -/
  | alpha8 (size : QSize) (color : Color) : Image
  /-- The image `icon.pixmap(size, mode, QIcon::On).toImage()`. -/
  | iconPixmap (icon : Icon) (size : QSize) (mode : Mode) : Image
  /-- The result of `requestImage(id, &actualSize, size)` of the named provider. -/
  | requestImage (provider id : String) (size : QSize) : Image
  /-- The result of `requestPixmap(id, &actualSize, size).toImage()` of the named provider. -/
  | requestPixmap (provider id : String) (size : QSize) : Image
  /-- The image `QImage::fromData(data)`. -/
  | fromData (data : List Nat) : Image
  /-- The image `img.scaled(size, Qt::KeepAspectRatio, mode)`, smooth or fast. -/
  | scaled (img : Image) (size : QSize) (smooth : Bool) : Image
  /-- The image after `fillRect(img.rect(), color)` in `CompositionMode_SourceIn`. -/
  | tinted (img : Image) (color : Color) : Image
  deriving DecidableEq, Repr

/-- The type `QQmlImageProviderBase::ImageType`. -/
inductive ImageType where
  | Image | Pixmap | Texture | Invalid | ImageResponse
  deriving DecidableEq, Repr

/-- The `m_source` variant, by its `type()`. A variant for which `isNull()` holds is `invalid`. -/
inductive Variant where
  | invalid : Variant
  | pixmap (img : Image) : Variant
  | image (img : Image) : Variant
  | bitmap (img : Image) : Variant
  | icon (icon : Icon) : Variant
  | url (s : String) : Variant
  | string (s : String) : Variant
  | brush (color : Color) : Variant
  | color (color : Color) : Variant
  | other (typeId : Nat) : Variant
  deriving DecidableEq, Repr

/-- The method `QVariant::isNull()`. -/
def Variant.isNull : Variant → Bool
  | Variant.invalid => true
  | _ => false

/-- The methods `QVariant::toString()` and `QVariant::toUrl()` of a string or URL variant. -/
def Variant.toString : Variant → String
  | Variant.url s => s
  | Variant.string s => s
  | _ => ""

/-- What the code asks of the toolkit and branches on. -/
structure Toolkit where
  /-- The method `QImage::isNull()` of an image made by the toolkit. -/
  imageIsNull : Image → Bool
  /-- The method `QImage::size()` of an image made by the toolkit. -/
  imageSize : Image → QSize
  /-- The method `QImage::cacheKey()`. -/
  cacheKey : Image → Int
  /-- The method `QIcon::isNull()`. -/
  iconIsNull : Icon → Bool
  /-- The method `QIcon::isMask()`. -/
  iconIsMask : Icon → Bool
  /-- The method `QUrl(s).host()`. -/
  urlHost : String → String
  /-- The method `QUrl(s).path()`. -/
  urlPath : String → String
  /-- The call `base.resolved(relative)` of `QUrl`. -/
  resolved : String → String → String
  /-- The image type of the `QQuickImageProvider` the engine has under a name, if it has one. -/
  imageProvider : String → Option ImageType
  /-- Whether `qmlEngine(this)` and its `networkAccessManager()` are there. -/
  hasNetworkAccessManager : Bool
  /-- The application attribute `Qt::AA_UseHighDpiPixmaps`. -/
  useHighDpiPixmaps : Bool
  /-- A size times the device pixel ratio of the window (of the application without one). -/
  scaleToDevice : QSize → QSize

/-- The method `QImage::isNull()`. -/
def Image.isNull (tk : Toolkit) : Image → Bool
  | Image.null => true
  | Image.alpha8 size _ => decide (size.wd < 1 ∨ size.ht < 1)
  | Image.tinted img _ => Image.isNull tk img
  | img => tk.imageIsNull img

/-- The method `QImage::size()`. -/
def Image.size (tk : Toolkit) : Image → QSize
  | Image.null => { wd := 0, ht := 0 }
  | Image.alpha8 size _ => if size.wd < 1 ∨ size.ht < 1 then { wd := 0, ht := 0 } else size
  | Image.tinted img _ => Image.size tk img
  | img => tk.imageSize img

/-- One `GET` issued through the `QNetworkAccessManager`. -/
structure Request where
  url : String
  /-- Whether `CacheLoadControlAttribute` is `PreferCache`. -/
  preferCache : Bool
  deriving DecidableEq, Repr

/-- The requests issued so far; the reply of a request is named by the index of the request. -/
structure Network where
  requests : List Request
  deriving DecidableEq, Repr

/-- The method `url()` of the reply with the given handle. -/
def Network.replyUrl (net : Network) (reply : Nat) : Option String :=
  (net.requests[reply]?).map Request.url

/-- What a handler sees of the `QNetworkReply` it is given. -/
structure Reply where
  url : String
  /-- Whether `error()` is `QNetworkReply::NoError`. -/
  noError : Bool
  /-- The attribute `RedirectionTargetAttribute`, when the reply carries it. -/
  redirectionTarget : Option String
  deriving DecidableEq, Repr

/-- The state of a `DesktopIcon`. -/
structure DesktopIcon where
  m_source : Variant
  m_smooth : Bool
  m_changed : Bool
  m_active : Bool
  m_selected : Bool
  m_isMask : Bool
  m_color : Color
  m_fallback : String
  m_loadedImage : Image
  /-- The pointer `m_networkReply`: no reply, or the handle of one. -/
  m_networkReply : Option Nat
  /-- The result of `QQuickItem::isEnabled()`. -/
  enabled : Bool
  /-- The value `int(width())`. -/
  width : Int
  /-- The value `int(height())`. -/
  height : Int
  /-- The result of `window()`. -/
  window : Nat
  /-- The colour `m_theme->textColor()`. -/
  textColor : Color
  /-- The colour `m_theme->highlightedTextColor()`. -/
  highlightedTextColor : Color
  /-- The number of `update()` calls so far. -/
  updates : Nat
  deriving DecidableEq, Repr

/-- The method `DesktopIcon::iconMode()` (lines 517-527). -/
def iconMode (item : DesktopIcon) : Mode :=
  if !item.enabled then Mode.Disabled
  else if item.m_selected then Mode.Selected
  else if item.m_active then Mode.Active
  else Mode.Normal

/-- A toolkit lookup made while an image is resolved. -/
inductive Call where
  /-- The call `qmlEngine(this)->imageProvider(name)`. -/
  | imageProvider (name : String) : Call
  /-- The call `requestImage(id, &actualSize, size)` on the named provider. -/
  | requestImage (provider id : String) (size : QSize) : Call
  /-- The call `requestPixmap(id, &actualSize, size)` on the named provider. -/
  | requestPixmap (provider id : String) (size : QSize) : Call
  /-- The call `qnam->get(request)` for a URL. -/
  | get (url : String) : Call
  /-- The call `QIcon::fromTheme(name)`. -/
  | qiconFromTheme (name : String) : Call
  /-- The construction `QIcon(fileName)`. -/
  | qiconFromFile (fileName : String) : Call
  /-- The call `m_theme->iconFromTheme(name, color)`. -/
  | iconFromTheme (name : String) (color : Color) : Call
  deriving DecidableEq, Repr

/-- The outcome of resolving an image: the image, the item and the network afterwards, and
the lookups made, in order. -/
structure Found where
  img : Image
  item : DesktopIcon
  net : Network
  calls : List Call
  deriving DecidableEq, Repr

/-- The normalisation of a local source string (lines 475-479). -/
def normalisedSource (tk : Toolkit) (iconSource : String) : String :=
  if startsWith iconSource "qrc:/" then mid iconSource 3
  else if startsWith iconSource "file:/" then tk.urlPath iconSource
  else iconSource

/-- The colour `tintColor` (line 497). -/
def tintColor (item : DesktopIcon) : Color :=
  if !item.m_color.isValid || decide (item.m_color = Color.transparent) then
    (if item.m_selected then item.highlightedTextColor else item.textColor)
  else item.m_color

/-- The condition under which the icon image is tinted (lines 499-506). -/
def shouldTint (tk : Toolkit) (item : DesktopIcon) (icon : Icon) (iconSource : String)
    (isPath : Bool) : Bool :=
  item.m_isMask ||
  tk.iconIsMask icon ||
  (endsWith iconSource "-symbolic" && (tintColor item).isValid &&
    decide (tintColor item ≠ Color.transparent)) ||
  (isPath && item.m_color.isValid && decide (item.m_color ≠ Color.transparent))

/-- The icon id of an `image://` source: the URL path, without its leading slash when it
starts with `/:` (lines 433-438). -/
def providerIconId (tk : Toolkit) (iconSource : String) : String :=
  let iconId := tk.urlPath iconSource
  if decide (iconId.length ≥ 2) && startsWith iconId "/:" then mid iconId 1 else iconId

/-- The method `DesktopIcon::findIcon(size)` (lines 425-515). -/
def findIcon (tk : Toolkit) (item : DesktopIcon) (net : Network) (size : QSize) : Found :=
  let iconSource := item.m_source.toString
  if startsWith iconSource "image://" then
    let iconProviderId := tk.urlHost iconSource
    let iconId := providerIconId tk iconSource
    match tk.imageProvider iconProviderId with
    | none =>
      { img := Image.null, item := item, net := net,
        calls := [Call.imageProvider iconProviderId] }
    | some ImageType.Image =>
      { img := Image.requestImage iconProviderId iconId size, item := item, net := net,
        calls := [Call.imageProvider iconProviderId,
          Call.requestImage iconProviderId iconId size] }
    | some ImageType.Pixmap =>
      { img := Image.requestPixmap iconProviderId iconId size, item := item, net := net,
        calls := [Call.imageProvider iconProviderId,
          Call.requestPixmap iconProviderId iconId size] }
    | some _ =>
      { img := Image.null, item := item, net := net,
        calls := [Call.imageProvider iconProviderId] }
  else if startsWith iconSource "http://" || startsWith iconSource "https://" then
    if !(Image.isNull tk item.m_loadedImage) then
      { img := Image.scaled item.m_loadedImage size item.m_smooth, item := item, net := net,
        calls := [] }
    else
      let url := item.m_source.toString
      let request : Bool := tk.hasNetworkAccessManager &&
        (match item.m_networkReply with
          | none => true
          | some reply => decide (net.replyUrl reply ≠ some url))
      { img := Image.iconPixmap (Icon.fromTheme "image-x-icon") size (iconMode item),
        item := if request then { item with m_networkReply := some net.requests.length }
          else item,
        net := if request then
            { requests := net.requests ++ [{ url := url, preferCache := true }] }
          else net,
        calls := (if request then [Call.get url] else []) ++
          [Call.qiconFromTheme "image-x-icon"] }
  else
    let iconSource := normalisedSource tk iconSource
    let isPath := containsSlash iconSource
    let icon := if isPath then Icon.fromFile iconSource
      else Icon.fromPlatformTheme iconSource item.m_color
    let lookup := if isPath then Call.qiconFromFile iconSource
      else Call.iconFromTheme iconSource item.m_color
    if !(tk.iconIsNull icon) then
      let img := Image.iconPixmap icon size (iconMode item)
      { img := if shouldTint tk item icon iconSource isPath then
            Image.tinted img (tintColor item)
          else img,
        item := item, net := net, calls := [lookup] }
    else { img := Image.null, item := item, net := net, calls := [lookup] }

/-- The switch on `m_source.type()` in `updatePaintNode` (lines 310-335). -/
def resolveSource (tk : Toolkit) (item : DesktopIcon) (net : Network) (size : QSize) : Found :=
  match item.m_source with
  | Variant.pixmap img => { img := img, item := item, net := net, calls := [] }
  | Variant.image img => { img := img, item := item, net := net, calls := [] }
  | Variant.bitmap img => { img := img, item := item, net := net, calls := [] }
  | Variant.icon icon =>
    { img := Image.iconPixmap icon size (iconMode item), item := item, net := net, calls := [] }
  | Variant.url _ => findIcon tk item net size
  | Variant.string _ => findIcon tk item net size
  | Variant.brush color => { img := Image.alpha8 size color, item := item, net := net, calls := [] }
  | Variant.color color => { img := Image.alpha8 size color, item := item, net := net, calls := [] }
  | _ => { img := Image.null, item := item, net := net, calls := [] }

/-- The size requested of the image: the item size times the pixel multiplier (lines 307-308). -/
def requestedSize (tk : Toolkit) (item : DesktopIcon) : QSize :=
  if tk.useHighDpiPixmaps then { wd := item.width, ht := item.height }
  else tk.scaleToDevice { wd := item.width, ht := item.height }

/-- The image passed on after the null check (lines 337-340). -/
def orTransparent (tk : Toolkit) (img : Image) (size : QSize) : Image :=
  if Image.isNull tk img then Image.alpha8 size Color.transparent else img

/-- The node rectangle for an image size (lines 304 and 341-347). -/
def placeImage (itemSize imageSize size : QSize) : QRect :=
  if imageSize ≠ size then
    (QRect.ofSize (imageSize.scaled itemSize)).moveCenter (QRect.ofSize itemSize).center
  else QRect.ofSize itemSize

/-- The type `QSGTexture::Filtering`, as far as the node uses it. -/
inductive Filtering where
  | Nearest | Linear
  deriving DecidableEq, Repr

/-- A scene-graph node handed to or returned by `updatePaintNode`. -/
inductive Node where
  /-- A node that is not a `ManagedTextureNode`. -/
  | other (key : Nat) : Node
  /-- A `ManagedTextureNode` with its `m_texture`, its rectangle and its filtering. -/
  | managed (texture : Option Nat) (rect : QRect) (filtering : Filtering) : Node
  deriving DecidableEq, Repr

/-- The effect on the textures of `delete node`, and of replacing the texture of a node by
`setTexture`: a managed node drops the strong reference it held. -/
def deleteNode (cache : CacheState) : Option Node → CacheState
  | some (Node.managed (some texture) _ _) => release cache texture
  | _ => cache

/-- What `updatePaintNode` returns and leaves behind. -/
structure Painted where
  node : Option Node
  item : DesktopIcon
  net : Network
  cache : CacheState
  /-- The image passed to `s_iconImageCache->loadTexture`, when it was called. -/
  loaded : Option Image
  calls : List Call
  deriving DecidableEq, Repr

/-- The method `DesktopIcon::updatePaintNode(node, data)` (lines 294-365). The two flags say
whether the textures that `loadTexture` creates, if it creates any, are atlas textures. -/
def updatePaintNode (tk : Toolkit) (atlas1 atlas2 : Bool) (item : DesktopIcon) (net : Network)
    (cache : CacheState) (node : Option Node) : Painted :=
  if item.m_source.isNull then
    { node := none, item := item, net := net, cache := deleteNode cache node, loaded := none,
      calls := [] }
  else if item.m_changed || node.isNone then
    let itemSize : QSize := { wd := item.width, ht := item.height }
    let size := requestedSize tk item
    let resolve : Bool := decide (itemSize.wd ≠ 0) && decide (itemSize.ht ≠ 0)
    let found : Found :=
      if resolve then resolveSource tk item net size
      else { img := Image.null, item := item, net := net, calls := [] }
    let img := if resolve then orTransparent tk found.img size else Image.null
    let nodeRect :=
      if resolve then placeImage itemSize (Image.size tk img) size else QRect.ofSize itemSize
    let item1 := { found.item with m_changed := false }
    let loaded := loadTexture2 atlas1 atlas2 cache item.window (tk.cacheKey img)
    let filtering (old : Filtering) := if item.m_smooth then Filtering.Linear else old
    match node with
    | some (Node.managed old _ oldFiltering) =>
      { node := some (Node.managed (some loaded.1) nodeRect (filtering oldFiltering)),
        item := item1, net := found.net,
        cache := match old with
          | some texture => release loaded.2 texture
          | none => loaded.2,
        loaded := some img, calls := found.calls }
    | _ =>
      { node := some (Node.managed (some loaded.1) nodeRect (filtering Filtering.Nearest)),
        item := item1, net := found.net, cache := loaded.2, loaded := some img,
        calls := found.calls }
  else
    { node := node, item := item, net := net, cache := cache, loaded := none, calls := [] }

/-- The method `DesktopIcon::handleFinished(qnam, reply)` (lines 376-395). -/
def handleFinished (tk : Toolkit) (item : DesktopIcon) (net : Network) (reply : Option Reply) :
    DesktopIcon × Network :=
  match reply with
  | none => (item, net)
  | some reply =>
    if reply.noError then
      let possibleRedirectUrl := reply.redirectionTarget.getD ""
      if possibleRedirectUrl ≠ "" then
        let redirectUrl := tk.resolved reply.url possibleRedirectUrl
        if redirectUrl = reply.url then (item, net)
        else
          ({ item with m_networkReply := some net.requests.length },
            { requests := net.requests ++ [{ url := possibleRedirectUrl, preferCache := true }] })
      else (item, net)
    else (item, net)

/-- One turn of the read loop in `handleReadyRead`: what `read(32768)` returns, and what
`processEvents()` does meanwhile: whether it leaves the item and the reply alive, and how it
changes the item. -/
structure ReadRound where
  chunk : List Nat
  itemAlive : Bool
  replyAlive : Bool
  events : DesktopIcon → DesktopIcon

/-- How the read loop of `handleReadyRead` ends. -/
inductive Drained where
  /-- The item was destroyed during `processEvents()`. -/
  | itemGone : Drained
  /-- The reply was destroyed during `processEvents()`. -/
  | replyGone (item : DesktopIcon) : Drained
  /-- The reply was read to its end. -/
  | atEnd (item : DesktopIcon) (data : List Nat) : Drained

/-- The loop of `handleReadyRead` (lines 406-413); the reply is at its end when no further
round is left. -/
def drain (item : DesktopIcon) (data : List Nat) (round : ReadRound) :
    List ReadRound → Drained
  | [] =>
    if !round.itemAlive then Drained.itemGone
    else if !round.replyAlive then Drained.replyGone (round.events item)
    else Drained.atEnd (round.events item) (data ++ round.chunk)
  | next :: rest =>
    if !round.itemAlive then Drained.itemGone
    else if !round.replyAlive then Drained.replyGone (round.events item)
    else drain (round.events item) (data ++ round.chunk) next rest

/-- The reply as `handleReadyRead` meets it: its redirection attribute and the rounds of
reading it takes to reach its end. -/
structure ReadableReply where
  redirectionTarget : Option String
  first : ReadRound
  rest : List ReadRound

/-- The method `DesktopIcon::handleReadyRead(reply)` (lines 397-423); no item is left when
the item is destroyed while the reply is read. -/
def handleReadyRead (tk : Toolkit) (item : DesktopIcon) (reply : Option ReadableReply) :
    Option DesktopIcon :=
  match reply with
  | none => some item
  | some reply =>
    if reply.redirectionTarget.isNone then
      match drain item [] reply.first reply.rest with
      | Drained.itemGone => none
      | Drained.replyGone item1 => some item1
      | Drained.atEnd item1 data =>
        let loaded := Image.fromData data
        let size := tk.scaleToDevice { wd := item1.width, ht := item1.height }
        some { item1 with
          m_loadedImage :=
            if Image.isNull tk loaded then
              Image.iconPixmap (Icon.fromTheme item1.m_fallback) size (iconMode item1)
            else loaded,
          m_changed := true,
          updates := item1.updates + 1 }
    else some item

/-- The bytes read over some rounds of the read loop. -/
def allChunks : List ReadRound → List Nat
  | [] => []
  | round :: rest => round.chunk ++ allChunks rest

/-- The item after the events of some rounds of the read loop. -/
def afterEvents (item : DesktopIcon) : List ReadRound → DesktopIcon
  | [] => item
  | round :: rest => afterEvents (round.events item) rest

/-- The node rectangle of a painted node. -/
def Painted.rect (p : Painted) : Option QRect :=
  match p.node with
  | some (Node.managed _ rect _) => some rect
  | _ => none

/-! ## A concrete toolkit and item for the runs in the theorems below -/

/-- A toolkit with device pixel ratio 2: the icon theme has every icon but `no-such-icon`,
there is one image provider (`icons`), data decodes when it starts with the PNG signature
bytes 137 and 80, and a held image has its size in its key (width times 1000 plus height). -/
def demoToolkit : Toolkit where
  imageIsNull := fun img =>
    match img with
    | Image.iconPixmap Icon.null _ _ => true
    | Image.iconPixmap (Icon.fromTheme name) _ _ => decide (name = "no-such-icon")
    | Image.iconPixmap (Icon.fromPlatformTheme name _) _ _ => decide (name = "no-such-icon")
    | Image.fromData data => !([137, 80].isPrefixOf data)
    | _ => false
  imageSize := fun img =>
    match img with
    | Image.held key => { wd := (key.toNat / 1000 : Nat), ht := (key.toNat % 1000 : Nat) }
    | Image.iconPixmap _ size _ => { wd := size.wd.toNat, ht := size.ht.toNat }
    | Image.requestImage _ _ size => { wd := size.wd.toNat, ht := size.ht.toNat }
    | Image.requestPixmap _ _ size => { wd := size.wd.toNat, ht := size.ht.toNat }
    | Image.scaled _ size _ => { wd := size.wd.toNat, ht := size.ht.toNat }
    | _ => { wd := 16, ht := 16 }
  cacheKey := fun img =>
    match img with
    | Image.null => 0
    | Image.held key => key
    | _ => 1
  iconIsNull := fun icon =>
    match icon with
    | Icon.null => true
    | Icon.fromTheme name => decide (name = "no-such-icon")
    | Icon.fromPlatformTheme name _ => decide (name = "no-such-icon")
    | _ => false
  iconIsMask := fun _ => false
  urlHost := fun s => String.mk ((s.toList.drop 8).takeWhile (fun c => c != Char.ofNat 47))
  urlPath := fun s =>
    if startsWith s "image://" then
      String.mk ((s.toList.drop 8).dropWhile (fun c => c != Char.ofNat 47))
    else if startsWith s "file:" then mid s 5
    else s
  resolved := fun _ relative => relative
  imageProvider := fun name => if name = "icons" then some ImageType.Image else none
  hasNetworkAccessManager := true
  useHighDpiPixmaps := false
  scaleToDevice := fun size => { wd := 2 * size.wd, ht := 2 * size.ht }

/-- An enabled, changed item of 32 by 32 pixels in window 1 with the given source and no
colour set, under a theme with a dark text colour. -/
def demoItem (source : Variant) : DesktopIcon :=
  { m_source := source, m_smooth := false, m_changed := true, m_active := false,
    m_selected := false, m_isMask := false, m_color := Color.invalid,
    m_fallback := "image-missing", m_loadedImage := Image.null, m_networkReply := none,
    enabled := true, width := 32, height := 32, window := 1,
    textColor := Color.rgba 35 38 41 255, highlightedTextColor := Color.rgba 255 255 255 255,
    updates := 0 }

/-- The image that a repaint passes to the texture cache: the resolved image (a transparent
one in place of a null one) when the item has a width and a height, `QImage()` otherwise. -/
def paintedImage (tk : Toolkit) (item : DesktopIcon) (net : Network) : Image :=
  if item.width ≠ 0 ∧ item.height ≠ 0 then
    orTransparent tk (resolveSource tk item net (requestedSize tk item)).img (requestedSize tk item)
  else Image.null

/-- A reply for the runs below: no redirection, one round of reading that delivers the data
and leaves everything alive and unchanged. -/
def demoReply (data : List Nat) : ReadableReply :=
  { redirectionTarget := none,
    first := { chunk := data, itemAlive := true, replyAlive := true, events := fun item => item },
    rest := [] }

/-! # Theorems -/

/-! ## Lemmas on `QHash` -/

namespace QHash

variable {κ ν : Type} [DecidableEq κ]

theorem mem_remove {m : QHash κ ν} {key : κ} {e : κ × ν} :
    e ∈ remove m key ↔ e ∈ m ∧ e.1 ≠ key := by
  simp [remove, List.mem_filter]

theorem mem_insert {m : QHash κ ν} {key : κ} {v : ν} {e : κ × ν} :
    e ∈ insert m key v ↔ e = (key, v) ∨ (e ∈ m ∧ e.1 ≠ key) := by
  simp [insert, mem_remove]

theorem keys_remove_sublist (m : QHash κ ν) (key : κ) :
    (keys (remove m key)).Sublist (keys m) := by
  unfold keys remove
  exact List.Sublist.map _ (List.filter_sublist m)

theorem not_mem_keys_remove (m : QHash κ ν) (key : κ) : key ∉ keys (remove m key) := by
  intro h
  simp only [keys, List.mem_map] at h
  obtain ⟨e, he, rfl⟩ := h
  exact (mem_remove.1 he).2 rfl

theorem nodup_remove {m : QHash κ ν} (key : κ) (h : (keys m).Nodup) :
    (keys (remove m key)).Nodup :=
  h.sublist (keys_remove_sublist m key)

theorem nodup_insert {m : QHash κ ν} (key : κ) (v : ν) (h : (keys m).Nodup) :
    (keys (insert m key v)).Nodup := by
  simp only [insert, keys, List.map_cons, List.nodup_cons]
  exact ⟨not_mem_keys_remove m key, nodup_remove key h⟩

theorem mem_of_value {m : QHash κ ν} {key : κ} {v : ν} (h : value m key = some v) :
    (key, v) ∈ m := by
  induction m with
  | nil => simp [value] at h
  | cons e m ih =>
    obtain ⟨k, w⟩ := e
    simp only [value] at h
    by_cases hk : k = key
    · simp only [hk, if_true, Option.some.injEq] at h
      simp [hk, h]
    · simp only [hk, if_false] at h
      exact List.mem_cons_of_mem _ (ih h)

theorem value_of_mem {m : QHash κ ν} {key : κ} {v : ν} (hn : (keys m).Nodup)
    (h : (key, v) ∈ m) : value m key = some v := by
  induction m with
  | nil => simp at h
  | cons e m ih =>
    obtain ⟨k, w⟩ := e
    simp only [keys, List.map_cons, List.nodup_cons] at hn
    simp only [value]
    rcases List.mem_cons.1 h with heq | hmem
    · simp only [Prod.mk.injEq] at heq
      simp [heq.1, heq.2]
    · by_cases hk : k = key
      · exfalso
        apply hn.1
        rw [hk]
        exact List.mem_map.2 ⟨(key, v), hmem, rfl⟩
      · simp only [hk, if_false]
        exact ih hn.2 hmem

theorem value_eq_none {m : QHash κ ν} {key : κ} (h : key ∉ keys m) : value m key = none := by
  induction m with
  | nil => rfl
  | cons e m ih =>
    obtain ⟨k, w⟩ := e
    simp only [keys, List.map_cons, List.mem_cons, not_or] at h
    simp only [value]
    rw [if_neg (fun hk => h.1 hk.symm)]
    exact ih h.2

theorem value_remove_self (m : QHash κ ν) (key : κ) : value (remove m key) key = none :=
  value_eq_none (not_mem_keys_remove m key)

theorem value_remove_ne {m : QHash κ ν} {key k : κ} (h : key ≠ k) :
    value (remove m key) k = value m k := by
  induction m with
  | nil => rfl
  | cons e m ih =>
    obtain ⟨k1, w⟩ := e
    by_cases h1 : k1 = key
    · have : remove ((k1, w) :: m) key = remove m key := by simp [remove, h1]
      rw [this, ih]
      simp only [value]
      rw [if_neg (by rw [h1]; exact h)]
    · have : remove ((k1, w) :: m) key = (k1, w) :: remove m key := by simp [remove, h1]
      rw [this]
      simp only [value, ih]

theorem value_insert_self (m : QHash κ ν) (key : κ) (v : ν) :
    value (insert m key v) key = some v := by
  simp [insert, value]

theorem value_insert_ne {m : QHash κ ν} {key k : κ} (v : ν) (h : key ≠ k) :
    value (insert m key v) k = value m k := by
  simp only [insert, value]
  rw [if_neg h]
  exact value_remove_ne h

end QHash

/-! ## Lemmas on the cache -/

theorem Cached.isAlive {ts : List Texture} {h w : Nat} {id : Int} (hc : Cached ts h w id) :
    isAlive ts h = true := by
  obtain ⟨t, ht, hpos, _⟩ := hc
  simp [Kirigami.isAlive, ht, hpos]

theorem Cached.unique {ts : List Texture} {h w w1 : Nat} {id id1 : Int}
    (hc : Cached ts h w id) (hc1 : Cached ts h w1 id1) : w = w1 ∧ id = id1 := by
  obtain ⟨t, ht, _, hd⟩ := hc
  obtain ⟨t1, ht1, _, hd1⟩ := hc1
  rw [ht] at ht1
  cases ht1
  rw [hd] at hd1
  cases hd1
  exact ⟨rfl, rfl⟩

theorem Cached.append {ts : List Texture} {h w : Nat} {id : Int} (l : List Texture)
    (hc : Cached ts h w id) : Cached (ts ++ l) h w id := by
  obtain ⟨t, ht, hpos, hd⟩ := hc
  refine ⟨t, ?_, hpos, hd⟩
  have hlt : h < ts.length := (List.getElem?_eq_some.1 ht).1
  rw [List.getElem?_append_left hlt]
  exact ht

theorem cached_append_plain {ts : List Texture} {h w : Nat} {id : Int} {a : Bool} :
    Cached (ts ++ [{ strong := 1, atlas := a, deleter := Deleter.plain }]) h w id ↔
      Cached ts h w id := by
  constructor
  · rintro ⟨t, ht, hpos, hd⟩
    by_cases hlt : h < ts.length
    · rw [List.getElem?_append_left hlt] at ht
      exact ⟨t, ht, hpos, hd⟩
    · exfalso
      rw [List.getElem?_append_right (Nat.le_of_not_lt hlt)] at ht
      rcases Nat.eq_zero_or_pos (h - ts.length) with h0 | h0
      · rw [h0] at ht
        simp only [List.getElem?_cons_zero, Option.some.injEq] at ht
        rw [← ht] at hd
        cases hd
      · rw [List.getElem?_eq_none (by simp only [List.length_singleton]; exact h0)] at ht
        cases ht
  · exact Cached.append _

theorem cached_set_strong {ts : List Texture} {h0 : Nat} {t0 u : Texture}
    (h0t : ts[h0]? = some t0) (hn : 0 < u.strong) (hpos : 0 < t0.strong)
    (hdel : u.deleter = t0.deleter) {h w : Nat} {id : Int} :
    Cached (ts.set h0 u) h w id ↔ Cached ts h w id := by
  have hlt : h0 < ts.length := (List.getElem?_eq_some.1 h0t).1
  by_cases hh : h0 = h
  · subst hh
    constructor
    · rintro ⟨t, ht, _, hd⟩
      rw [List.getElem?_set_self hlt] at ht
      cases ht
      exact ⟨t0, h0t, hpos, hdel ▸ hd⟩
    · rintro ⟨t, ht, _, hd⟩
      rw [h0t] at ht
      cases ht
      exact ⟨_, List.getElem?_set_self hlt, hn, hdel.trans hd⟩
  · simp only [Cached, List.getElem?_set_ne hh]

theorem cached_set_dead {ts : List Texture} {h0 : Nat} {t0 t1 : Texture}
    (h0t : ts[h0]? = some t0) (hz : t1.strong = 0) {h w : Nat} {id : Int} :
    Cached (ts.set h0 t1) h w id ↔ h ≠ h0 ∧ Cached ts h w id := by
  have hlt : h0 < ts.length := (List.getElem?_eq_some.1 h0t).1
  by_cases hh : h0 = h
  · subst hh
    constructor
    · rintro ⟨t, ht, hp, _⟩
      rw [List.getElem?_set_self hlt] at ht
      cases ht
      rw [hz] at hp
      exact absurd hp (Nat.lt_irrefl 0)
    · rintro ⟨hne, _⟩
      exact absurd rfl hne
  · simp only [Cached, List.getElem?_set_ne hh]
    constructor
    · intro hc
      exact ⟨fun e => hh e.symm, hc⟩
    · intro hc
      exact hc.2

theorem mem_of_entry {s : CacheState} {id : Int} {w h : Nat} (he : entry s id w = some h) :
    ∃ tbl, (id, tbl) ∈ s.cache ∧ (w, h) ∈ tbl := by
  unfold entry at he
  cases hv : QHash.value s.cache id with
  | none => rw [hv] at he; simp [QHash.value] at he
  | some tbl =>
    rw [hv] at he
    exact ⟨tbl, QHash.mem_of_value hv, QHash.mem_of_value he⟩

theorem entry_of_mem {s : CacheState} (hu : UniqueKeys s) {id : Int} {tbl : QHash Nat Nat}
    {w h : Nat} (h1 : (id, tbl) ∈ s.cache) (h2 : (w, h) ∈ tbl) : entry s id w = some h := by
  unfold entry
  rw [QHash.value_of_mem hu.1 h1]
  exact QHash.value_of_mem (hu.2 id tbl h1) h2

/-- Under the invariant a cache lookup that finds an entry finds a live texture. -/
theorem toStrongRef_entry {s : CacheState} (hi : Inv s) (id : Int) (w : Nat) :
    toStrongRef s.textures (entry s id w) = entry s id w := by
  cases he : entry s id w with
  | none => rfl
  | some h =>
    obtain ⟨tbl, h1, h2⟩ := mem_of_entry he
    have hc : Cached s.textures h w id := hi.1 id tbl h1 w h h2
    simp [toStrongRef, hc.isAlive]

/-- A state change that keeps the cache and the set of live cached textures keeps the invariant. -/
theorem Inv.of_cached_iff {s : CacheState} {ts : List Texture} (hi : Inv s)
    (hts : ∀ h w id, Cached ts h w id ↔ Cached s.textures h w id) :
    Inv { s with textures := ts } := by
  obtain ⟨h1, h2, h3, h4⟩ := hi
  refine ⟨?_, h2, h3, ?_⟩
  · intro id tbl hm w h hw
    exact (hts h w id).2 (h1 id tbl hm w h hw)
  · intro h t w id ht hp hd
    exact h4 h _ w id ((hts h w id).1 ⟨t, ht, hp, hd⟩).choose_spec.1
      ((hts h w id).1 ⟨t, ht, hp, hd⟩).choose_spec.2.1
      ((hts h w id).1 ⟨t, ht, hp, hd⟩).choose_spec.2.2

theorem Inv.retain {s : CacheState} (hi : Inv s) (h : Nat) : Inv (retain s h) := by
  unfold Kirigami.retain
  cases ht : s.textures[h]? with
  | none => exact hi
  | some t =>
    by_cases hp : 0 < t.strong
    · simp only [hp, if_true]
      exact hi.of_cached_iff (fun _ _ _ =>
        cached_set_strong (u := { t with strong := t.strong + 1 }) ht (Nat.succ_pos _) hp rfl)
    · simp only [hp, if_false]
      exact hi

theorem value_getD_mem {cache : TexturesCache} {id : Int} {e : Nat × Nat}
    (he : e ∈ (cache.value id).getD []) : (id, (cache.value id).getD []) ∈ cache := by
  cases hv : QHash.value cache id with
  | none => rw [hv] at he; simp at he
  | some tbl => exact QHash.mem_of_value (by simpa using hv)

/-- What `cleanAndDelete` leaves in the cache was there before and is not the entry removed. -/
theorem mem_cleanAndDelete {cache : TexturesCache} {w : Nat} {id : Int} {id1 : Int}
    {tbl1 : QHash Nat Nat} {w1 h1 : Nat}
    (hm : (id1, tbl1) ∈ cleanAndDelete cache w id) (hw : (w1, h1) ∈ tbl1) :
    ∃ tbl0, (id1, tbl0) ∈ cache ∧ (w1, h1) ∈ tbl0 ∧ ¬ (id1 = id ∧ w1 = w) := by
  unfold cleanAndDelete at hm
  by_cases hempty : (((cache.value id).getD []).remove w).isEmpty = true
  · simp only [hempty, if_true] at hm
    obtain ⟨hm1, hne⟩ := QHash.mem_remove.1 hm
    exact ⟨tbl1, hm1, hw, fun hc => hne hc.1⟩
  · simp only [hempty] at hm
    rcases QHash.mem_insert.1 hm with heq | ⟨hm1, hne⟩
    · cases heq
      obtain ⟨hw1, hne⟩ := QHash.mem_remove.1 hw
      exact ⟨_, value_getD_mem hw1, hw1, fun hc => hne hc.2⟩
    · exact ⟨tbl1, hm1, hw, fun hc => hne hc.1⟩

theorem cleanAndDelete_nonempty {cache : TexturesCache} {w : Nat} {id : Int}
    (hc : ∀ id1 tbl1, (id1, tbl1) ∈ cache → tbl1 ≠ []) :
    ∀ id1 tbl1, (id1, tbl1) ∈ cleanAndDelete cache w id → tbl1 ≠ [] := by
  intro id1 tbl1 hm
  unfold cleanAndDelete at hm
  by_cases hempty : (((cache.value id).getD []).remove w).isEmpty = true
  · simp only [hempty, if_true] at hm
    exact hc id1 tbl1 (QHash.mem_remove.1 hm).1
  · simp only [hempty] at hm
    rcases QHash.mem_insert.1 hm with heq | ⟨hm1, _⟩
    · cases heq
      intro he
      exact hempty (List.isEmpty_iff.2 he)
    · exact hc id1 tbl1 hm1

theorem cleanAndDelete_nodup {cache : TexturesCache} {w : Nat} {id : Int}
    (h1 : (QHash.keys cache).Nodup)
    (h2 : ∀ id1 tbl1, (id1, tbl1) ∈ cache → (QHash.keys tbl1).Nodup) :
    (QHash.keys (cleanAndDelete cache w id)).Nodup ∧
      ∀ id1 tbl1, (id1, tbl1) ∈ cleanAndDelete cache w id → (QHash.keys tbl1).Nodup := by
  have htbl : (QHash.keys ((cache.value id).getD [])).Nodup := by
    cases hv : QHash.value cache id with
    | none => simp [QHash.keys]
    | some tbl => exact h2 id tbl (QHash.mem_of_value hv)
  unfold cleanAndDelete
  by_cases hempty : (((cache.value id).getD []).remove w).isEmpty = true
  · simp only [hempty, if_true]
    exact ⟨QHash.nodup_remove id h1, fun id1 tbl1 hm => h2 id1 tbl1 (QHash.mem_remove.1 hm).1⟩
  · simp only [hempty]
    refine ⟨QHash.nodup_insert id _ h1, ?_⟩
    intro id1 tbl1 hm
    rcases QHash.mem_insert.1 hm with heq | ⟨hm1, _⟩
    · cases heq
      exact QHash.nodup_remove w htbl
    · exact h2 id1 tbl1 hm1

/-- Running `cleanAndDelete` leaves every other entry as it was. -/
theorem value_cleanAndDelete_ne {cache : TexturesCache} {w w1 : Nat} {id id1 : Int}
    (hne : ¬ (id1 = id ∧ w1 = w)) :
    (((cleanAndDelete cache w id).value id1).getD []).value w1 =
      ((cache.value id1).getD []).value w1 := by
  unfold cleanAndDelete
  simp only
  by_cases hid : id = id1
  · subst hid
    have hw : w ≠ w1 := fun e => hne ⟨rfl, e.symm⟩
    by_cases hempty : (((cache.value id).getD []).remove w).isEmpty = true
    · rw [if_pos hempty, QHash.value_remove_self, Option.getD_none]
      have h0 := QHash.value_remove_ne (m := (cache.value id).getD []) hw
      rw [List.isEmpty_iff.1 hempty] at h0
      exact h0
    · rw [if_neg hempty, QHash.value_insert_self, Option.getD_some]
      exact QHash.value_remove_ne hw
  · by_cases hempty : (((cache.value id).getD []).remove w).isEmpty = true
    · rw [if_pos hempty, QHash.value_remove_ne hid]
    · rw [if_neg hempty, QHash.value_insert_ne _ hid]

/-- The last release of a cached texture keeps the invariant. -/
theorem Inv.release_last {s : CacheState} (hi : Inv s) {h : Nat} {t t1 : Texture} {w : Nat}
    {id : Int} (ht : s.textures[h]? = some t) (hp : 0 < t.strong)
    (hd : t.deleter = Deleter.cleanAndDelete w id) (hz : t1.strong = 0) :
    Inv { cache := cleanAndDelete s.cache w id, textures := s.textures.set h t1 } := by
  obtain ⟨h1, h2, h3, h4⟩ := hi
  have hself : Cached s.textures h w id := ⟨t, ht, hp, hd⟩
  refine ⟨?_, cleanAndDelete_nonempty h2, cleanAndDelete_nodup h3.1 h3.2, ?_⟩
  · intro id1 tbl1 hm w1 hh hw
    obtain ⟨tbl0, hm0, hw0, hne⟩ := mem_cleanAndDelete hm hw
    have hc : Cached s.textures hh w1 id1 := h1 id1 tbl0 hm0 w1 hh hw0
    refine (cached_set_dead ht hz).2 ⟨?_, hc⟩
    intro e
    subst e
    have := hc.unique hself
    exact hne ⟨this.2, this.1⟩
  · intro hh tt w1 id1 htt hpp hdd
    obtain ⟨hne, hc⟩ := (cached_set_dead ht hz).1 ⟨tt, htt, hpp, hdd⟩
    obtain ⟨t0, ht0, hp0, hd0⟩ := hc
    have he : entry s id1 w1 = some hh := h4 hh t0 w1 id1 ht0 hp0 hd0
    have hkey : ¬ (id1 = id ∧ w1 = w) := by
      rintro ⟨e1, e2⟩
      subst e1
      subst e2
      have he0 : entry s id1 w1 = some h := h4 h t w1 id1 ht hp hd
      rw [he] at he0
      exact hne (Option.some.inj he0)
    unfold entry
    simp only
    rw [value_cleanAndDelete_ne hkey]
    exact he

theorem Inv.release {s : CacheState} (hi : Inv s) (h : Nat) : Inv (release s h) := by
  unfold Kirigami.release
  cases ht : s.textures[h]? with
  | none => exact hi
  | some t =>
    simp only
    by_cases h0 : t.strong = 0
    · simp only [h0, if_true]
      exact hi
    · have hp : 0 < t.strong := Nat.pos_of_ne_zero h0
      simp only [h0, if_false]
      by_cases h1 : t.strong = 1
      · simp only [h1, if_true]
        cases hd : t.deleter with
        | plain =>
          simp only
          refine hi.of_cached_iff (fun hh w id => ?_)
          rw [cached_set_dead ht rfl]
          constructor
          · exact fun hc => hc.2
          · intro hc
            refine ⟨?_, hc⟩
            intro e
            subst e
            obtain ⟨t1, ht1, _, hd1⟩ := hc
            rw [ht] at ht1
            cases ht1
            rw [hd] at hd1
            cases hd1
        | cleanAndDelete w id =>
          simp only
          exact hi.release_last ht hp hd rfl
      · simp only [h1, if_false]
        have hgt : 0 < t.strong - 1 := by omega
        exact hi.of_cached_iff (fun _ _ _ =>
          cached_set_strong (u := { t with strong := t.strong - 1 }) ht hgt hp rfl)

theorem Inv.append_plain {s : CacheState} (hi : Inv s) (a : Bool) :
    Inv { s with textures := s.textures ++ [{ strong := 1, atlas := a, deleter := Deleter.plain }] } :=
  hi.of_cached_iff (fun _ _ _ => cached_append_plain)

theorem cached_append_cached {ts : List Texture} {h w w1 : Nat} {id id1 : Int} {a : Bool} :
    Cached (ts ++ [{ strong := 1, atlas := a, deleter := Deleter.cleanAndDelete w1 id1 }]) h w id ↔
      Cached ts h w id ∨ (h = ts.length ∧ w = w1 ∧ id = id1) := by
  constructor
  · rintro ⟨t, ht, hpos, hd⟩
    by_cases hlt : h < ts.length
    · rw [List.getElem?_append_left hlt] at ht
      exact Or.inl ⟨t, ht, hpos, hd⟩
    · right
      rw [List.getElem?_append_right (Nat.le_of_not_lt hlt)] at ht
      rcases Nat.eq_zero_or_pos (h - ts.length) with h0 | h0
      · rw [h0] at ht
        simp only [List.getElem?_cons_zero, Option.some.injEq] at ht
        rw [← ht] at hd
        cases hd
        exact ⟨by omega, rfl, rfl⟩
      · rw [List.getElem?_eq_none (by simp only [List.length_singleton]; exact h0)] at ht
        cases ht
  · rintro (hc | ⟨rfl, rfl, rfl⟩)
    · exact hc.append _
    · exact ⟨_, List.getElem?_concat_length ts _, Nat.one_pos, rfl⟩

/-- A cache miss (lines 103-111) keeps the invariant. -/
theorem Inv.miss {s : CacheState} (hi : Inv s) {id : Int} {w : Nat} (a : Bool)
    (hnone : entry s id w = none) :
    Inv { cache := s.cache.insert id (((s.cache.value id).getD []).insert w s.textures.length),
          textures := s.textures ++
            [{ strong := 1, atlas := a, deleter := Deleter.cleanAndDelete w id }] } := by
  obtain ⟨h1, h2, h3, h4⟩ := hi
  have htbl : (QHash.keys ((s.cache.value id).getD [])).Nodup := by
    cases hv : QHash.value s.cache id with
    | none => simp [QHash.keys]
    | some tbl => exact h3.2 id tbl (QHash.mem_of_value hv)
  refine ⟨?_, ?_, ⟨QHash.nodup_insert id _ h3.1, ?_⟩, ?_⟩
  · intro id1 tbl1 hm w1 hh hw
    rcases QHash.mem_insert.1 hm with heq | ⟨hm1, _⟩
    · cases heq
      rcases QHash.mem_insert.1 hw with heq1 | ⟨hw1, _⟩
      · cases heq1
        exact cached_append_cached.2 (Or.inr ⟨rfl, rfl, rfl⟩)
      · exact Cached.append _ (h1 id _ (value_getD_mem hw1) w1 hh hw1)
    · exact Cached.append _ (h1 id1 tbl1 hm1 w1 hh hw)
  · intro id1 tbl1 hm
    rcases QHash.mem_insert.1 hm with heq | ⟨hm1, _⟩
    · cases heq
      simp [QHash.insert]
    · exact h2 id1 tbl1 hm1
  · intro id1 tbl1 hm
    rcases QHash.mem_insert.1 hm with heq | ⟨hm1, _⟩
    · cases heq
      exact QHash.nodup_insert w _ htbl
    · exact h3.2 id1 tbl1 hm1
  · intro hh tt w1 id1 htt hpp hdd
    rcases cached_append_cached.1 ⟨tt, htt, hpp, hdd⟩ with hc | ⟨rfl, rfl, rfl⟩
    · obtain ⟨t0, ht0, hp0, hd0⟩ := hc
      have he : entry s id1 w1 = some hh := h4 hh t0 w1 id1 ht0 hp0 hd0
      unfold entry at he ⊢
      simp only
      by_cases hid : id = id1
      · subst hid
        rw [QHash.value_insert_self, Option.getD_some]
        have hw : w ≠ w1 := by
          intro e
          subst e
          unfold entry at hnone
          rw [hnone] at he
          cases he
        rw [QHash.value_insert_ne _ hw]
        exact he
      · rw [QHash.value_insert_ne _ hid]
        exact he
    · unfold entry
      simp only
      rw [QHash.value_insert_self, Option.getD_some, QHash.value_insert_self]

/-- Every `loadTexture` call keeps the invariant. -/
theorem Inv.loadTexture {s : CacheState} (hi : Inv s) (atlas1 atlas2 : Bool) (w : Nat)
    (id : Int) (options : Nat) : Inv (loadTexture atlas1 atlas2 s w id options).2 := by
  unfold Kirigami.loadTexture
  simp only
  have hs1 : Inv (match toStrongRef s.textures (((s.cache.value id).getD []).value w) with
      | some h => Kirigami.retain s h
      | none =>
        { cache := s.cache.insert id (((s.cache.value id).getD []).insert w s.textures.length),
          textures := s.textures ++
            [{ strong := 1, atlas := atlas1, deleter := Deleter.cleanAndDelete w id }] }) := by
    cases hhit : toStrongRef s.textures (((s.cache.value id).getD []).value w) with
    | some h => exact hi.retain h
    | none =>
      have hnone : entry s id w = none := by
        have := toStrongRef_entry hi id w
        unfold entry at this ⊢
        rw [← this]
        exact hhit
      exact hi.miss atlas1 hnone
  split
  · exact (hs1.append_plain atlas2).release _
  · exact hs1

theorem Inv.empty : Inv CacheState.empty := by
  refine ⟨?_, ?_, ⟨?_, ?_⟩, ?_⟩
  · intro id tbl hm
    simp [CacheState.empty] at hm
  · intro id tbl hm
    simp [CacheState.empty] at hm
  · simp [CacheState.empty, QHash.keys]
  · intro id tbl hm
    simp [CacheState.empty] at hm
  · intro h t w id ht
    simp [CacheState.empty] at ht

theorem Inv.steps {s s1 : CacheState} (hs : Steps s s1) (hi : Inv s) : Inv s1 := by
  induction hs with
  | refl => exact hi
  | load a1 a2 w id o _ ih => exact ih.loadTexture a1 a2 w id o
  | retain h _ ih => exact ih.retain h
  | release h _ ih => exact ih.release h

theorem Inv.reachable {s : CacheState} (hs : Reachable s) : Inv s :=
  Inv.steps hs Inv.empty

theorem Stable.refl (ts : List Texture) : Stable ts ts :=
  fun _ t ht => ⟨t, ht, rfl, rfl⟩

theorem Stable.trans {ts ts1 ts2 : List Texture} (h1 : Stable ts ts1) (h2 : Stable ts1 ts2) :
    Stable ts ts2 := by
  intro h t ht
  obtain ⟨t1, ht1, hd1, ha1⟩ := h1 h t ht
  obtain ⟨t2, ht2, hd2, ha2⟩ := h2 h t1 ht1
  exact ⟨t2, ht2, hd2.trans hd1, ha2.trans ha1⟩

theorem Stable.set {ts : List Texture} {h0 : Nat} {t0 u : Texture} (h0t : ts[h0]? = some t0)
    (hd : u.deleter = t0.deleter) (ha : u.atlas = t0.atlas) : Stable ts (ts.set h0 u) := by
  intro h t ht
  have hlt : h0 < ts.length := (List.getElem?_eq_some.1 h0t).1
  by_cases hh : h0 = h
  · subst hh
    rw [h0t] at ht
    cases ht
    exact ⟨u, List.getElem?_set_self hlt, hd, ha⟩
  · exact ⟨t, by rw [List.getElem?_set_ne hh]; exact ht, rfl, rfl⟩

theorem stable_retain (s : CacheState) (h : Nat) : Stable s.textures (retain s h).textures := by
  unfold retain
  cases ht : s.textures[h]? with
  | none => exact Stable.refl _
  | some t =>
    by_cases hp : 0 < t.strong
    · simp only [hp, if_true]
      exact Stable.set ht rfl rfl
    · simp only [hp, if_false]
      exact Stable.refl _

theorem isAtlasTexture_retain (s : CacheState) (h h1 : Nat) :
    isAtlasTexture (retain s h).textures h1 = isAtlasTexture s.textures h1 := by
  unfold isAtlasTexture
  cases ht : s.textures[h1]? with
  | none =>
    have hlen : (retain s h).textures.length = s.textures.length := by
      unfold retain
      cases s.textures[h]? with
      | none => rfl
      | some t =>
        by_cases hp : 0 < t.strong
        · simp only [hp, if_true, List.length_set]
        · simp only [hp, if_false]
    have hnone : (retain s h).textures[h1]? = none := by
      apply List.getElem?_eq_none
      rw [hlen]
      by_contra hc
      have hlt : h1 < s.textures.length := Nat.lt_of_not_le hc
      rw [List.getElem?_eq_getElem hlt] at ht
      cases ht
    rw [hnone]
  | some t =>
    obtain ⟨t1, ht1, _, ha⟩ := stable_retain s h h1 t ht
    rw [ht1]
    exact ha

/-- A cache hit on an atlas texture by a request that cannot use the atlas creates a new
texture, which is returned and not cached. -/
theorem loadTexture_bypass (atlas1 atlas2 : Bool) (s : CacheState) (w : Nat) (id : Int)
    (options h : Nat) (he : entry s id w = some h) (ha : isAlive s.textures h = true)
    (hno : canUseAtlas options = false) (hat : isAtlasTexture s.textures h = true) :
    (loadTexture atlas1 atlas2 s w id options).1 = s.textures.length := by
  have hlen : (retain s h).textures.length = s.textures.length := by
    unfold retain
    cases s.textures[h]? with
    | none => rfl
    | some t =>
      by_cases hp : 0 < t.strong
      · simp only [hp, if_true, List.length_set]
      · simp only [hp, if_false]
  unfold entry at he
  unfold loadTexture
  simp only [he, toStrongRef, ha, if_true, Option.getD_some, isAtlasTexture_retain, hno, hat,
    Bool.not_false, Bool.and_self, hlen]

theorem Inv.bookkeeping {s : CacheState} (hi : Inv s) : Bookkeeping s :=
  ⟨fun id tbl hm w h hw => Cached.isAlive (hi.1 id tbl hm w h hw), hi.2.1, hi.2.2.1.1,
    hi.2.2.1.2⟩

theorem cache_empty_of_dead {s : CacheState} (hb : Bookkeeping s)
    (hdead : ∀ t ∈ s.textures, t.strong = 0) : s.cache = [] := by
  cases hc : s.cache with
  | nil => rfl
  | cons e rest =>
    exfalso
    obtain ⟨id, tbl⟩ := e
    have hm : (id, tbl) ∈ s.cache := by rw [hc]; exact List.mem_cons_self _ _
    cases htbl : tbl with
    | nil => exact hb.2.1 id tbl hm htbl
    | cons e1 rest1 =>
      obtain ⟨w, h⟩ := e1
      have hw : (w, h) ∈ tbl := by rw [htbl]; exact List.mem_cons_self _ _
      have ha := hb.1 id tbl hm w h hw
      unfold isAlive at ha
      cases ht : s.textures[h]? with
      | none => rw [ht] at ha; cases ha
      | some t =>
        rw [ht] at ha
        have hz := hdead t (List.getElem?_mem ht)
        simp [hz] at ha

/-! ## The claims on the texture cache -/

/-- C10: in every state the cache reaches through `loadTexture` calls, copies of returned
shared pointers and releases of strong references, the bookkeeping properties hold, they
hold again after any further `loadTexture` call and after any further release, and when no
texture is alive any more the cache is empty. -/
theorem cache_bookkeeping (s : CacheState) (hs : Reachable s) :
    Bookkeeping s ∧
      (∀ (atlas1 atlas2 : Bool) (w : Nat) (id : Int) (options : Nat),
        Bookkeeping (loadTexture atlas1 atlas2 s w id options).2) ∧
      (∀ h : Nat, Bookkeeping (release s h)) ∧
      ((∀ t ∈ s.textures, t.strong = 0) → s.cache = []) :=
  ⟨(Inv.reachable hs).bookkeeping,
    fun a1 a2 w id o => ((Inv.reachable hs).loadTexture a1 a2 w id o).bookkeeping,
    fun h => ((Inv.reachable hs).release h).bookkeeping,
    cache_empty_of_dead (Inv.reachable hs).bookkeeping⟩

/-- C10 at a concrete run: two textures are loaded and both are released again, after which
the cache is empty. -/
theorem cache_bookkeeping_witness :
    Reachable (release (release (loadTexture false false
        (loadTexture false false CacheState.empty 7 42 0).2 7 43 0).2 0) 1) ∧
      (release (release (loadTexture false false
        (loadTexture false false CacheState.empty 7 42 0).2 7 43 0).2 0) 1).cache = [] :=
  ⟨Steps.release 1 (Steps.release 0 (Steps.load false false 7 43 0
      (Steps.load false false 7 42 0 (Steps.refl _)))),
    (cache_bookkeeping _ (Steps.release 1 (Steps.release 0 (Steps.load false false 7 43 0
      (Steps.load false false 7 42 0 (Steps.refl _)))))).2.2.2 (by decide)⟩

/-! ## The claims on the item -/

/-- C2: `iconMode` returns `Disabled` exactly when the item is not enabled, `Selected`
exactly when it is enabled and selected, `Active` exactly when it is enabled, not selected
and active, and `Normal` exactly when it is enabled and neither selected nor active. -/
theorem iconMode_priority (item : DesktopIcon) :
    (iconMode item = Mode.Disabled ↔ item.enabled = false) ∧
    (iconMode item = Mode.Selected ↔ item.enabled = true ∧ item.m_selected = true) ∧
    (iconMode item = Mode.Active ↔
      item.enabled = true ∧ item.m_selected = false ∧ item.m_active = true) ∧
    (iconMode item = Mode.Normal ↔
      item.enabled = true ∧ item.m_selected = false ∧ item.m_active = false) := by
  unfold iconMode
  cases item.enabled <;> cases item.m_selected <;> cases item.m_active <;> simp

theorem drain_alive (item : DesktopIcon) (data : List Nat) (round : ReadRound)
    (rest : List ReadRound)
    (halive : ∀ r ∈ round :: rest, r.itemAlive = true ∧ r.replyAlive = true) :
    drain item data round rest =
      Drained.atEnd (afterEvents item (round :: rest)) (data ++ allChunks (round :: rest)) := by
  induction rest generalizing item data round with
  | nil =>
    have h := halive round (List.mem_cons_self _ _)
    simp [drain, h.1, h.2, afterEvents, allChunks]
  | cons next rest ih =>
    have h := halive round (List.mem_cons_self _ _)
    have hrest : ∀ r ∈ next :: rest, r.itemAlive = true ∧ r.replyAlive = true :=
      fun r hr => halive r (List.mem_cons_of_mem _ hr)
    simp only [drain, h.1, h.2, Bool.not_true, Bool.false_eq_true, if_false]
    rw [ih _ _ _ hrest]
    simp [afterEvents, allChunks, List.append_assoc]

/-- C4: when the reply carries no redirection target and is read to its end with the item
and the reply alive after every round, `m_loadedImage` becomes the decoded image, or, when
the bytes read do not decode, the theme icon named by `m_fallback` rendered with `iconMode()`
at the item size times the device pixel ratio; `m_changed` is set and one `update()` is
requested. For a reply with a redirection target and for a null reply nothing changes. -/
theorem handleReadyRead_fallback (tk : Toolkit) (item : DesktopIcon) :
    (∀ reply : ReadableReply, reply.redirectionTarget = none →
      (∀ r ∈ reply.first :: reply.rest, r.itemAlive = true ∧ r.replyAlive = true) →
      handleReadyRead tk item (some reply) =
        some { afterEvents item (reply.first :: reply.rest) with
          m_loadedImage :=
            if Image.isNull tk (Image.fromData (allChunks (reply.first :: reply.rest))) then
              Image.iconPixmap
                (Icon.fromTheme (afterEvents item (reply.first :: reply.rest)).m_fallback)
                (tk.scaleToDevice
                  { wd := (afterEvents item (reply.first :: reply.rest)).width,
                    ht := (afterEvents item (reply.first :: reply.rest)).height })
                (iconMode (afterEvents item (reply.first :: reply.rest)))
            else Image.fromData (allChunks (reply.first :: reply.rest)),
          m_changed := true,
          updates := (afterEvents item (reply.first :: reply.rest)).updates + 1 }) ∧
    (∀ reply : ReadableReply, reply.redirectionTarget ≠ none →
      handleReadyRead tk item (some reply) = some item) ∧
    handleReadyRead tk item none = some item := by
  refine ⟨?_, ?_, rfl⟩
  · intro reply hred halive
    have hd := drain_alive item [] reply.first reply.rest halive
    simp only [List.nil_append] at hd
    simp only [handleReadyRead, hred, Option.isNone_none, if_true, hd]
  · intro reply hred
    cases h : reply.redirectionTarget with
    | none => exact absurd h hred
    | some target => simp [handleReadyRead, h]

/-- C9: `handleFinished` issues a request exactly when the reply is there, finished without
error, carries a non-empty redirection target, and the target resolved against the URL of
the reply differs from that URL. When a request is issued, it is one `GET` with `PreferCache`
appended to the requests, and `m_networkReply` becomes its reply; otherwise the item, with
its `m_networkReply`, and the network are left as they were. -/
theorem handleFinished_redirect (tk : Toolkit) (item : DesktopIcon) (net : Network)
    (reply : Option Reply) :
    ((handleFinished tk item net reply).2 ≠ net ↔
      ∃ r target, reply = some r ∧ r.noError = true ∧ r.redirectionTarget = some target ∧
        target ≠ "" ∧ tk.resolved r.url target ≠ r.url) ∧
    (∀ r target, reply = some r → r.noError = true → r.redirectionTarget = some target →
      target ≠ "" → tk.resolved r.url target ≠ r.url →
      (handleFinished tk item net reply).2.requests =
          net.requests ++ [{ url := target, preferCache := true }] ∧
        (handleFinished tk item net reply).1 =
          { item with m_networkReply := some net.requests.length } ∧
        (handleFinished tk item net reply).2.replyUrl net.requests.length = some target) ∧
    (∀ r target, reply = some r → r.redirectionTarget = some target →
      tk.resolved r.url target = r.url → handleFinished tk item net reply = (item, net)) ∧
    ((handleFinished tk item net reply).2 = net → handleFinished tk item net reply = (item, net)) := by
  have hne : ∀ (l : List Request) (x : Request), ({ requests := l ++ [x] } : Network) ≠
      { requests := l } := by
    intro l x h
    have h1 := congrArg (fun n => n.requests.length) h
    simp at h1
  cases reply with
  | none =>
    refine ⟨?_, ?_, ?_, ?_⟩
    · simp [handleFinished]
    · intro r target h
      cases h
    · intro r target h
      cases h
    · intro _
      rfl
  | some r =>
    obtain ⟨url, noError, red⟩ := r
    cases noError with
    | false =>
      refine ⟨?_, ?_, ?_, ?_⟩
      · simp [handleFinished]
      · intro r target h h1
        cases h
        cases h1
      · intro r target h _ _
        cases h
        simp [handleFinished]
      · intro _
        simp [handleFinished]
    | true =>
      cases red with
      | none =>
        refine ⟨?_, ?_, ?_, ?_⟩
        · simp [handleFinished]
        · intro r target h _ h2
          cases h
          cases h2
        · intro r target h h2
          cases h
          cases h2
        · intro _
          simp [handleFinished]
      | some target =>
        by_cases ht : target = ""
        · refine ⟨?_, ?_, ?_, ?_⟩
          · simp [handleFinished, ht]
          · intro r target1 h _ h2 h3
            cases h
            cases h2
            exact absurd ht h3
          · intro r target1 h h2 _
            cases h
            cases h2
            simp [handleFinished, ht]
          · intro _
            simp [handleFinished, ht]
        · by_cases hres : tk.resolved url target = url
          · refine ⟨?_, ?_, ?_, ?_⟩
            · simp [handleFinished, ht, hres]
            · intro r target1 h _ h2 _ h4
              cases h
              cases h2
              exact absurd hres h4
            · intro r target1 h h2 _
              cases h
              cases h2
              simp [handleFinished, ht, hres]
            · intro _
              simp [handleFinished, ht, hres]
          · refine ⟨?_, ?_, ?_, ?_⟩
            · simp only [handleFinished, if_true, Option.getD_some, ne_eq, ht, not_false_eq_true,
                hres, if_false]
              constructor
              · intro _
                exact ⟨_, target, rfl, rfl, rfl, ht, hres⟩
              · intro _
                exact hne _ _
            · intro r target1 h _ h2 _ _
              cases h
              cases h2
              simp [handleFinished, ht, hres, Network.replyUrl]
            · intro r target1 h h2 h3
              cases h
              cases h2
              exact absurd h3 hres
            · intro h
              exfalso
              simp only [handleFinished, if_true, Option.getD_some, ne_eq, ht, not_false_eq_true,
                hres, if_false] at h
              exact hne _ _ h

/-- C4 at a concrete reply: three bytes that do not decode leave the fallback icon, rendered
at twice the item size, in `m_loadedImage`. -/
theorem handleReadyRead_fallback_witness :
    handleReadyRead demoToolkit (demoItem (Variant.string "https://kde.org/a.png"))
        (some (demoReply [1, 2, 3])) =
      some { demoItem (Variant.string "https://kde.org/a.png") with
        m_loadedImage :=
          Image.iconPixmap (Icon.fromTheme "image-missing") { wd := 64, ht := 64 } Mode.Normal,
        m_changed := true, updates := 1 } :=
  (handleReadyRead_fallback demoToolkit (demoItem (Variant.string "https://kde.org/a.png"))).1
    (demoReply [1, 2, 3]) rfl (by
      intro r hr
      simp only [demoReply, List.mem_singleton] at hr
      subst hr
      exact ⟨rfl, rfl⟩)

/-- C9 at a concrete reply: a redirection from one URL to another issues one request for
the target, and a redirection to the URL of the reply itself issues none. -/
theorem handleFinished_redirect_witness :
    handleFinished demoToolkit (demoItem (Variant.string "https://kde.org/a.png"))
        { requests := [{ url := "https://kde.org/a.png", preferCache := true }] }
        (some { url := "https://kde.org/a.png", noError := true,
                redirectionTarget := some "https://kde.org/a.png" }) =
      (demoItem (Variant.string "https://kde.org/a.png"),
        { requests := [{ url := "https://kde.org/a.png", preferCache := true }] }) :=
  (handleFinished_redirect demoToolkit (demoItem (Variant.string "https://kde.org/a.png"))
    { requests := [{ url := "https://kde.org/a.png", preferCache := true }] }
    (some { url := "https://kde.org/a.png", noError := true,
            redirectionTarget := some "https://kde.org/a.png" })).2.2.1
    { url := "https://kde.org/a.png", noError := true,
      redirectionTarget := some "https://kde.org/a.png" }
    "https://kde.org/a.png" rfl rfl rfl

/-! ### Repainting -/

theorem updatePaintNode_loaded (tk : Toolkit) (atlas1 atlas2 : Bool) (item : DesktopIcon)
    (net : Network) (cache : CacheState) (node : Option Node)
    (hsrc : item.m_source.isNull = false) (hpaint : item.m_changed = true ∨ node = none) :
    (updatePaintNode tk atlas1 atlas2 item net cache node).loaded =
      some (paintedImage tk item net) := by
  have hc : (item.m_changed || node.isNone) = true := by
    rcases hpaint with h | h
    · simp [h]
    · simp [h]
  unfold updatePaintNode paintedImage
  simp only [hsrc, Bool.false_eq_true, if_false, hc, if_true]
  by_cases hw : item.width = 0
  · split <;> simp [hw]
  · by_cases hh : item.height = 0
    · split <;> simp [hh]
    · split <;> simp [hw, hh]

theorem updatePaintNode_effects (tk : Toolkit) (atlas1 atlas2 : Bool) (item : DesktopIcon)
    (net : Network) (cache : CacheState) (node : Option Node)
    (hsrc : item.m_source.isNull = false) (hpaint : item.m_changed = true ∨ node = none) :
    (item.width ≠ 0 ∧ item.height ≠ 0 →
      (updatePaintNode tk atlas1 atlas2 item net cache node).calls =
          (resolveSource tk item net (requestedSize tk item)).calls ∧
        (updatePaintNode tk atlas1 atlas2 item net cache node).net =
          (resolveSource tk item net (requestedSize tk item)).net ∧
        (updatePaintNode tk atlas1 atlas2 item net cache node).item =
          { (resolveSource tk item net (requestedSize tk item)).item with m_changed := false }) ∧
    (¬ (item.width ≠ 0 ∧ item.height ≠ 0) →
      (updatePaintNode tk atlas1 atlas2 item net cache node).calls = [] ∧
        (updatePaintNode tk atlas1 atlas2 item net cache node).net = net ∧
        (updatePaintNode tk atlas1 atlas2 item net cache node).item =
          { item with m_changed := false }) := by
  have hc : (item.m_changed || node.isNone) = true := by
    rcases hpaint with h | h
    · simp [h]
    · simp [h]
  unfold updatePaintNode
  simp only [hsrc, Bool.false_eq_true, if_false, hc, if_true]
  constructor
  · rintro ⟨hw, hh⟩
    split <;> simp [hw, hh]
  · intro hn
    by_cases hw : item.width = 0
    · split <;> simp [hw]
    · have hh : item.height = 0 := by
        by_contra hh
        exact hn ⟨hw, hh⟩
      split <;> simp [hh]

theorem updatePaintNode_node (tk : Toolkit) (atlas1 atlas2 : Bool) (item : DesktopIcon)
    (net : Network) (cache : CacheState) (node : Option Node)
    (hsrc : item.m_source.isNull = false) (hpaint : item.m_changed = true ∨ node = none) :
    (∃ filtering,
      (updatePaintNode tk atlas1 atlas2 item net cache node).node =
        some (Node.managed
          (some (loadTexture2 atlas1 atlas2 cache item.window
            (tk.cacheKey (paintedImage tk item net))).1)
          (if item.width ≠ 0 ∧ item.height ≠ 0 then
            placeImage { wd := item.width, ht := item.height }
              (Image.size tk (paintedImage tk item net)) (requestedSize tk item)
           else QRect.ofSize { wd := item.width, ht := item.height })
          filtering)) ∧
    (updatePaintNode tk atlas1 atlas2 item net cache node).cache =
      deleteNode (loadTexture2 atlas1 atlas2 cache item.window
        (tk.cacheKey (paintedImage tk item net))).2 node := by
  have hc : (item.m_changed || node.isNone) = true := by
    rcases hpaint with h | h
    · simp [h]
    · simp [h]
  unfold updatePaintNode paintedImage
  simp only [hsrc, Bool.false_eq_true, if_false, hc, if_true]
  by_cases hw : item.width = 0
  · rcases node with _ | ⟨_ | ⟨_ | old, r, f⟩⟩ <;> simp [hw, deleteNode]
  · by_cases hh : item.height = 0
    · rcases node with _ | ⟨_ | ⟨_ | old, r, f⟩⟩ <;> simp [hh, deleteNode]
    · rcases node with _ | ⟨_ | ⟨_ | old, r, f⟩⟩ <;> simp [hw, hh, deleteNode]

/-- C7, as stated, fails: an item of width 0 with a changed theme-icon source is repainted
without the source being resolved (no lookup is made, although resolving would make one),
and a null image is passed to the texture cache. -/
theorem staleness_counterexample :
    ({ demoItem (Variant.string "edit-copy") with width := 0 } : DesktopIcon).m_source.isNull =
      false ∧
    ({ demoItem (Variant.string "edit-copy") with width := 0 } : DesktopIcon).m_changed = true ∧
    (updatePaintNode demoToolkit false false
      { demoItem (Variant.string "edit-copy") with width := 0 } { requests := [] }
      CacheState.empty none).calls = [] ∧
    (updatePaintNode demoToolkit false false
      { demoItem (Variant.string "edit-copy") with width := 0 } { requests := [] }
      CacheState.empty none).loaded = some Image.null ∧
    (resolveSource demoToolkit { demoItem (Variant.string "edit-copy") with width := 0 }
      { requests := [] }
      (requestedSize demoToolkit { demoItem (Variant.string "edit-copy") with width := 0 })) =
      { img := Image.iconPixmap (Icon.fromPlatformTheme "edit-copy" Color.invalid)
          { wd := 0, ht := 64 } Mode.Normal,
        item := { demoItem (Variant.string "edit-copy") with width := 0 },
        net := { requests := [] },
        calls := [Call.iconFromTheme "edit-copy" Color.invalid] } := by
  decide

/-- C7, amended: with a null source `updatePaintNode` returns no node. With a non-null
source, an unchanged item and a node, it returns that node and changes nothing, resolves
nothing and does not call the texture cache. With a non-null source and a changed item or
no node, it passes an image to the two-argument `loadTexture` and returns a
`ManagedTextureNode` holding the texture that call returns (the node drops the texture it
held before), with `m_changed` false; the
image is the resolved one when the width and the height of the item are non-zero, and then
the lookups, the network and the item are as resolving leaves them; when the width or the
height is zero nothing is resolved and the image is `QImage()`. -/
theorem updatePaintNode_staleness (tk : Toolkit) (atlas1 atlas2 : Bool) (item : DesktopIcon)
    (net : Network) (cache : CacheState) :
    (∀ node, item.m_source.isNull = true →
      (updatePaintNode tk atlas1 atlas2 item net cache node).node = none) ∧
    (∀ n, item.m_source.isNull = false → item.m_changed = false →
      updatePaintNode tk atlas1 atlas2 item net cache (some n) =
        { node := some n, item := item, net := net, cache := cache, loaded := none,
          calls := [] }) ∧
    (∀ node, item.m_source.isNull = false → (item.m_changed = true ∨ node = none) →
      (∃ rect filtering,
        (updatePaintNode tk atlas1 atlas2 item net cache node).node =
          some (Node.managed
            (some (loadTexture2 atlas1 atlas2 cache item.window
              (tk.cacheKey (paintedImage tk item net))).1) rect filtering)) ∧
      (updatePaintNode tk atlas1 atlas2 item net cache node).loaded =
        some (paintedImage tk item net) ∧
      (updatePaintNode tk atlas1 atlas2 item net cache node).cache =
        deleteNode (loadTexture2 atlas1 atlas2 cache item.window
          (tk.cacheKey (paintedImage tk item net))).2 node ∧
      (updatePaintNode tk atlas1 atlas2 item net cache node).item.m_changed = false ∧
      (item.width ≠ 0 ∧ item.height ≠ 0 →
        paintedImage tk item net =
          orTransparent tk (resolveSource tk item net (requestedSize tk item)).img
            (requestedSize tk item) ∧
        (updatePaintNode tk atlas1 atlas2 item net cache node).calls =
          (resolveSource tk item net (requestedSize tk item)).calls ∧
        (updatePaintNode tk atlas1 atlas2 item net cache node).net =
          (resolveSource tk item net (requestedSize tk item)).net ∧
        (updatePaintNode tk atlas1 atlas2 item net cache node).item =
          { (resolveSource tk item net (requestedSize tk item)).item with m_changed := false }) ∧
      (¬ (item.width ≠ 0 ∧ item.height ≠ 0) →
        paintedImage tk item net = Image.null ∧
        (updatePaintNode tk atlas1 atlas2 item net cache node).calls = [] ∧
        (updatePaintNode tk atlas1 atlas2 item net cache node).net = net ∧
        (updatePaintNode tk atlas1 atlas2 item net cache node).item =
          { item with m_changed := false })) := by
  refine ⟨?_, ?_, ?_⟩
  · intro node hsrc
    simp [updatePaintNode, hsrc]
  · intro n hsrc hch
    simp [updatePaintNode, hsrc, hch]
  · intro node hsrc hpaint
    have hnode := updatePaintNode_node tk atlas1 atlas2 item net cache node hsrc hpaint
    have heff := updatePaintNode_effects tk atlas1 atlas2 item net cache node hsrc hpaint
    obtain ⟨⟨filtering, hn⟩, hcache⟩ := hnode
    refine ⟨⟨_, filtering, hn⟩,
      updatePaintNode_loaded tk atlas1 atlas2 item net cache node hsrc hpaint, hcache, ?_, ?_, ?_⟩
    · by_cases hr : item.width ≠ 0 ∧ item.height ≠ 0
      · rw [(heff.1 hr).2.2]
      · rw [(heff.2 hr).2.2]
    · intro hr
      exact ⟨by simp [paintedImage, hr], heff.1 hr⟩
    · intro hr
      exact ⟨by simp only [paintedImage, hr, if_false], heff.2 hr⟩

/-- C7, amended, at a concrete input: an unchanged item with a node keeps the node. -/
theorem updatePaintNode_staleness_witness :
    updatePaintNode demoToolkit false false
        { demoItem (Variant.string "edit-copy") with m_changed := false } { requests := [] }
        CacheState.empty (some (Node.other 5)) =
      { node := some (Node.other 5),
        item := { demoItem (Variant.string "edit-copy") with m_changed := false },
        net := { requests := [] }, cache := CacheState.empty, loaded := none, calls := [] } :=
  (updatePaintNode_staleness demoToolkit false false
    { demoItem (Variant.string "edit-copy") with m_changed := false } { requests := [] }
    CacheState.empty).2.1 (Node.other 5) rfl rfl

/-! ### Placement of the image -/

theorem scaled_bounds (iw ih W H : Int) (hW : 0 < W) (hH : 0 < H) (hiw : 0 ≤ iw)
    (hih : 0 ≤ ih) :
    0 ≤ (QSize.scaled { wd := iw, ht := ih } { wd := W, ht := H }).wd ∧
    (QSize.scaled { wd := iw, ht := ih } { wd := W, ht := H }).wd ≤ W ∧
    0 ≤ (QSize.scaled { wd := iw, ht := ih } { wd := W, ht := H }).ht ∧
    (QSize.scaled { wd := iw, ht := ih } { wd := W, ht := H }).ht ≤ H := by
  unfold QSize.scaled
  simp only
  by_cases h0 : iw = 0 ∨ ih = 0
  · rw [if_pos h0]
    exact ⟨Int.le_of_lt hW, Int.le_refl _, Int.le_of_lt hH, Int.le_refl _⟩
  · rw [if_neg h0]
    have hiw1 : 0 < iw := by omega
    have hih1 : 0 < ih := by omega
    have hHi : 0 ≤ H * iw := Int.mul_nonneg (Int.le_of_lt hH) hiw
    have hWi : 0 ≤ W * ih := Int.mul_nonneg (Int.le_of_lt hW) hih
    rw [Int.tdiv_eq_ediv hHi hih, Int.tdiv_eq_ediv hWi hiw]
    by_cases hrw : H * iw / ih ≤ W
    · rw [if_pos hrw]
      exact ⟨Int.ediv_nonneg hHi hih, hrw, Int.le_of_lt hH, Int.le_refl _⟩
    · rw [if_neg hrw]
      refine ⟨Int.le_of_lt hW, Int.le_refl _, Int.ediv_nonneg hWi hiw, ?_⟩
      have h1 : W + 1 ≤ H * iw / ih := by omega
      have h2 : (W + 1) * ih ≤ H * iw := (Int.le_ediv_iff_mul_le hih1).1 h1
      have h3 : W * ih < H * iw := by nlinarith
      exact Int.le_of_lt (Int.ediv_lt_of_lt_mul hiw1 h3)

theorem moveCenter_size (d : QSize) (p : Int × Int) :
    ((QRect.ofSize d).moveCenter p).size = d := by
  unfold QRect.moveCenter QRect.ofSize QRect.size
  cases d
  simp only [QSize.mk.injEq]
  constructor <;> omega

theorem tdiv_two (a : Int) (h : -1 ≤ a) : Int.tdiv a 2 = (a + 1) / 2 - (if a = -1 then 0 else
    (a + 1) / 2 - a / 2) := by
  by_cases ha : a = -1
  · subst ha
    decide
  · have h0 : 0 ≤ a := by omega
    rw [Int.tdiv_eq_ediv h0 (by decide), if_neg ha]
    omega

theorem moveCenter_within (dw dh W H : Int) (hW : 0 < W) (hH : 0 < H) (hdw : 0 ≤ dw)
    (hdw1 : dw ≤ W) (hdh : 0 ≤ dh) (hdh1 : dh ≤ H) :
    QRect.within ((QRect.ofSize { wd := dw, ht := dh }).moveCenter
        (QRect.ofSize { wd := W, ht := H }).center)
      (QRect.ofSize { wd := W, ht := H }) := by
  unfold QRect.within QRect.moveCenter QRect.center QRect.ofSize
  simp only [Int.zero_add, Int.sub_zero]
  rw [Int.tdiv_eq_ediv (by omega : (0 : Int) ≤ W - 1) (by decide),
    Int.tdiv_eq_ediv (by omega : (0 : Int) ≤ H - 1) (by decide),
    tdiv_two (dw - 1) (by omega), tdiv_two (dh - 1) (by omega)]
  refine ⟨?_, ?_, ?_, ?_⟩
  · split <;> omega
  · split <;> omega
  · split <;> omega
  · split <;> omega

theorem moveCenter_center (dw dh W H : Int) (hdw : 0 < dw) (hdw1 : dw ≤ W) (hdh : 0 < dh)
    (hdh1 : dh ≤ H) :
    ((QRect.ofSize { wd := dw, ht := dh }).moveCenter
        (QRect.ofSize { wd := W, ht := H }).center).center =
      (QRect.ofSize { wd := W, ht := H }).center := by
  unfold QRect.moveCenter QRect.center QRect.ofSize
  simp only [Int.zero_add, Int.sub_zero]
  rw [Int.tdiv_eq_ediv (by omega : (0 : Int) ≤ W - 1) (by decide),
    Int.tdiv_eq_ediv (by omega : (0 : Int) ≤ H - 1) (by decide),
    Int.tdiv_eq_ediv (by omega : (0 : Int) ≤ dw - 1) (by decide),
    Int.tdiv_eq_ediv (by omega : (0 : Int) ≤ dh - 1) (by decide)]
  rw [Int.tdiv_eq_ediv (by omega) (by decide), Int.tdiv_eq_ediv (by omega) (by decide)]
  refine Prod.ext ?_ ?_
  · simp only
    omega
  · simp only
    omega

theorem image_size_nonneg (tk : Toolkit)
    (htk : ∀ img, 0 ≤ (tk.imageSize img).wd ∧ 0 ≤ (tk.imageSize img).ht) (img : Image) :
    0 ≤ (Image.size tk img).wd ∧ 0 ≤ (Image.size tk img).ht := by
  induction img with
  | null => simp [Image.size]
  | alpha8 size color =>
    simp only [Image.size]
    split
    · simp
    · constructor <;> omega
  | tinted img color ih => simpa [Image.size] using ih
  | held key => simpa [Image.size] using htk _
  | iconPixmap icon size mode => simpa [Image.size] using htk _
  | requestImage provider id size => simpa [Image.size] using htk _
  | requestPixmap provider id size => simpa [Image.size] using htk _
  | fromData data => simpa [Image.size] using htk _
  | scaled img size smooth _ => simpa [Image.size] using htk _

theorem updatePaintNode_rect (tk : Toolkit) (atlas1 atlas2 : Bool) (item : DesktopIcon)
    (net : Network) (cache : CacheState) (node : Option Node)
    (hsrc : item.m_source.isNull = false) (hpaint : item.m_changed = true ∨ node = none) :
    (updatePaintNode tk atlas1 atlas2 item net cache node).rect =
      some (if item.width ≠ 0 ∧ item.height ≠ 0 then
          placeImage { wd := item.width, ht := item.height }
            (Image.size tk (paintedImage tk item net)) (requestedSize tk item)
        else QRect.ofSize { wd := item.width, ht := item.height }) := by
  obtain ⟨⟨filtering, hn⟩, _⟩ :=
    updatePaintNode_node tk atlas1 atlas2 item net cache node hsrc hpaint
  simp only [Painted.rect, hn]

/-- C8, as stated, fails. First, an image of 1 by 100 pixels in an item of 10 by 10 pixels
is scaled to width 0, and the centre of the node rectangle is (3, 4) while the centre of the
item rectangle is (4, 4). Second, for an item of width -10 and height 5 and an image of 20
by 20 pixels the centre of the node rectangle is (-5, 1) while that of the item rectangle
is (-5, 2). -/
theorem placement_counterexample :
    ((updatePaintNode demoToolkit false false
        { demoItem (Variant.image (Image.held 1100)) with width := 10, height := 10 }
        { requests := [] } CacheState.empty none).loaded = some (Image.held 1100) ∧
      Image.size demoToolkit (Image.held 1100) = { wd := 1, ht := 100 } ∧
      requestedSize demoToolkit
        { demoItem (Variant.image (Image.held 1100)) with width := 10, height := 10 } =
        { wd := 20, ht := 20 } ∧
      (updatePaintNode demoToolkit false false
        { demoItem (Variant.image (Image.held 1100)) with width := 10, height := 10 }
        { requests := [] } CacheState.empty none).rect =
        some { x1 := 4, y1 := 0, x2 := 3, y2 := 9 } ∧
      QRect.center { x1 := 4, y1 := 0, x2 := 3, y2 := 9 } = (3, 4) ∧
      (QRect.ofSize { wd := 10, ht := 10 }).center = (4, 4)) ∧
    ((updatePaintNode demoToolkit false false
        { demoItem (Variant.image (Image.held 20020)) with width := -10, height := 5 }
        { requests := [] } CacheState.empty none).loaded = some (Image.held 20020) ∧
      Image.size demoToolkit (Image.held 20020) = { wd := 20, ht := 20 } ∧
      requestedSize demoToolkit
        { demoItem (Variant.image (Image.held 20020)) with width := -10, height := 5 } =
        { wd := -20, ht := 10 } ∧
      (updatePaintNode demoToolkit false false
        { demoItem (Variant.image (Image.held 20020)) with width := -10, height := 5 }
        { requests := [] } CacheState.empty none).rect =
        some { x1 := 0, y1 := 7, x2 := -11, y2 := -4 } ∧
      QRect.center { x1 := 0, y1 := 7, x2 := -11, y2 := -4 } = (-5, 1) ∧
      (QRect.ofSize { wd := -10, ht := 5 }).center = (-5, 2)) := by
  decide

/-- C8, amended: on a repaint of an item with a non-null source, under a toolkit whose
images have non-negative sizes, the node rectangle is (0, 0, w, h) when w or h is zero and
when the image passed to the cache has the requested size. When w and h are positive and
that image has another size, the node rectangle has the image size scaled to fit (w, h)
with the aspect ratio kept, its width is at most w and its height at most h, it lies inside
the item rectangle, and, when the scaled size has a positive width and height, its centre
is the centre of the item rectangle. -/
theorem updatePaintNode_placement (tk : Toolkit) (atlas1 atlas2 : Bool) (item : DesktopIcon)
    (net : Network) (cache : CacheState) (node : Option Node)
    (hsrc : item.m_source.isNull = false) (hpaint : item.m_changed = true ∨ node = none)
    (htk : ∀ img, 0 ≤ (tk.imageSize img).wd ∧ 0 ≤ (tk.imageSize img).ht) :
    (updatePaintNode tk atlas1 atlas2 item net cache node).loaded =
      some (paintedImage tk item net) ∧
    (item.width = 0 ∨ item.height = 0 →
      (updatePaintNode tk atlas1 atlas2 item net cache node).rect =
        some (QRect.ofSize { wd := item.width, ht := item.height })) ∧
    (Image.size tk (paintedImage tk item net) = requestedSize tk item →
      (updatePaintNode tk atlas1 atlas2 item net cache node).rect =
        some (QRect.ofSize { wd := item.width, ht := item.height })) ∧
    (0 < item.width → 0 < item.height →
      Image.size tk (paintedImage tk item net) ≠ requestedSize tk item →
      ∃ rect, (updatePaintNode tk atlas1 atlas2 item net cache node).rect = some rect ∧
        rect.size = (Image.size tk (paintedImage tk item net)).scaled
          { wd := item.width, ht := item.height } ∧
        rect.size.wd ≤ item.width ∧ rect.size.ht ≤ item.height ∧
        rect.within (QRect.ofSize { wd := item.width, ht := item.height }) ∧
        (0 < rect.size.wd → 0 < rect.size.ht →
          rect.center = (QRect.ofSize { wd := item.width, ht := item.height }).center)) := by
  have hrect := updatePaintNode_rect tk atlas1 atlas2 item net cache node hsrc hpaint
  refine ⟨updatePaintNode_loaded tk atlas1 atlas2 item net cache node hsrc hpaint, ?_, ?_, ?_⟩
  · intro hz
    rw [hrect]
    have : ¬ (item.width ≠ 0 ∧ item.height ≠ 0) := by
      rintro ⟨h1, h2⟩
      rcases hz with h | h
      · exact h1 h
      · exact h2 h
    rw [if_neg this]
  · intro heq
    rw [hrect]
    split
    · simp [placeImage, heq]
    · rfl
  · intro hw hh hne
    have hnz : item.width ≠ 0 ∧ item.height ≠ 0 := ⟨by omega, by omega⟩
    rw [hrect, if_pos hnz]
    refine ⟨_, rfl, ?_⟩
    have hsz := image_size_nonneg tk htk (paintedImage tk item net)
    generalize Image.size tk (paintedImage tk item net) = isz at hne hsz
    obtain ⟨iw, ih⟩ := isz
    have hb := scaled_bounds iw ih item.width item.height hw hh hsz.1 hsz.2
    simp only [placeImage, hne, ne_eq, not_false_eq_true, if_true]
    rw [moveCenter_size]
    generalize QSize.scaled { wd := iw, ht := ih } { wd := item.width, ht := item.height } = d
      at hb
    obtain ⟨dw, dh⟩ := d
    simp only at hb
    refine ⟨rfl, hb.2.1, hb.2.2.2, ?_, ?_⟩
    · exact moveCenter_within dw dh item.width item.height hw hh hb.1 hb.2.1 hb.2.2.1 hb.2.2.2
    · intro h1 h2
      exact moveCenter_center dw dh item.width item.height h1 hb.2.1 h2 hb.2.2.2

/-- C8, amended, at a concrete input: an image of 200 by 100 pixels in an item of 32 by 32
pixels. -/
theorem updatePaintNode_placement_witness :
    ∃ rect, (updatePaintNode demoToolkit false false
        (demoItem (Variant.image (Image.held 200100))) { requests := [] } CacheState.empty
        none).rect = some rect ∧
      rect.size = (Image.size demoToolkit (paintedImage demoToolkit
          (demoItem (Variant.image (Image.held 200100))) { requests := [] })).scaled
        { wd := (demoItem (Variant.image (Image.held 200100))).width,
          ht := (demoItem (Variant.image (Image.held 200100))).height } ∧
      rect.size.wd ≤ (demoItem (Variant.image (Image.held 200100))).width ∧
      rect.size.ht ≤ (demoItem (Variant.image (Image.held 200100))).height ∧
      rect.within (QRect.ofSize
        { wd := (demoItem (Variant.image (Image.held 200100))).width,
          ht := (demoItem (Variant.image (Image.held 200100))).height }) ∧
      (0 < rect.size.wd → 0 < rect.size.ht →
        rect.center = (QRect.ofSize
          { wd := (demoItem (Variant.image (Image.held 200100))).width,
            ht := (demoItem (Variant.image (Image.held 200100))).height }).center) :=
  (updatePaintNode_placement demoToolkit false false
    (demoItem (Variant.image (Image.held 200100))) { requests := [] } CacheState.empty none
    rfl (Or.inl rfl)
    (by
      intro img
      cases img <;> simp [demoToolkit]
      omega)).2.2.2
    (by decide) (by decide) (by decide)

/-! ### Routing of the source string -/

theorem tinted_ne (img : Image) (color : Color) : Image.tinted img color ≠ img := by
  intro h
  have hs := congrArg sizeOf h
  simp only [Image.tinted.sizeOf_spec] at hs
  omega

theorem findIcon_local (tk : Toolkit) (item : DesktopIcon) (net : Network) (size : QSize)
    (h1 : startsWith item.m_source.toString "image://" = false)
    (h2 : startsWith item.m_source.toString "http://" = false)
    (h3 : startsWith item.m_source.toString "https://" = false)
    (hicon : tk.iconIsNull
      (if containsSlash (normalisedSource tk item.m_source.toString) then
        Icon.fromFile (normalisedSource tk item.m_source.toString)
       else Icon.fromPlatformTheme (normalisedSource tk item.m_source.toString) item.m_color) =
      false) :
    (findIcon tk item net size).img =
      if shouldTint tk item
          (if containsSlash (normalisedSource tk item.m_source.toString) then
            Icon.fromFile (normalisedSource tk item.m_source.toString)
           else Icon.fromPlatformTheme (normalisedSource tk item.m_source.toString) item.m_color)
          (normalisedSource tk item.m_source.toString)
          (containsSlash (normalisedSource tk item.m_source.toString)) then
        Image.tinted
          (Image.iconPixmap
            (if containsSlash (normalisedSource tk item.m_source.toString) then
              Icon.fromFile (normalisedSource tk item.m_source.toString)
             else Icon.fromPlatformTheme (normalisedSource tk item.m_source.toString)
              item.m_color)
            size (iconMode item))
          (tintColor item)
      else
        Image.iconPixmap
          (if containsSlash (normalisedSource tk item.m_source.toString) then
            Icon.fromFile (normalisedSource tk item.m_source.toString)
           else Icon.fromPlatformTheme (normalisedSource tk item.m_source.toString) item.m_color)
          size (iconMode item) := by
  unfold findIcon
  simp only [h1, h2, h3, Bool.false_eq_true, if_false, Bool.or_self, hicon, Bool.not_false,
    if_true]

/-- C5, as stated, fails in its last part: under a theme whose text colour is transparent, a
symbolic theme icon with no colour set that is not a mask is left untinted. -/
theorem symbolic_tint_counterexample :
    ({ demoItem (Variant.string "edit-copy-symbolic") with textColor := Color.transparent } :
      DesktopIcon).m_color.isValid = false ∧
    endsWith (normalisedSource demoToolkit "edit-copy-symbolic") "-symbolic" = true ∧
    demoToolkit.iconIsNull (Icon.fromPlatformTheme "edit-copy-symbolic" Color.invalid) = false ∧
    findIcon demoToolkit
        { demoItem (Variant.string "edit-copy-symbolic") with textColor := Color.transparent }
        { requests := [] } { wd := 64, ht := 64 } =
      { img := Image.iconPixmap (Icon.fromPlatformTheme "edit-copy-symbolic" Color.invalid)
          { wd := 64, ht := 64 } Mode.Normal,
        item := { demoItem (Variant.string "edit-copy-symbolic") with
          textColor := Color.transparent },
        net := { requests := [] },
        calls := [Call.iconFromTheme "edit-copy-symbolic" Color.invalid] } := by
  decide

/-- C5, amended: for a local or theme source whose icon is not null, the tint colour is the
colour property when that is valid and not transparent, and otherwise the highlighted text
colour of the theme when the item is selected and its text colour when it is not; the image
is the icon rendering tinted with the tint colour exactly when `isMask` is set, or the icon
is a mask, or the normalised name ends with `-symbolic` and the tint colour is valid and not
transparent, or the normalised name contains a slash and the colour property is valid and
not transparent; otherwise it is the untinted rendering. So a symbolic icon with no colour
set is tinted to that theme colour when the colour is valid and not transparent, and a theme
icon named without a slash and without the `-symbolic` ending is tinted exactly when it is a
mask. -/
theorem findIcon_tinting (tk : Toolkit) (item : DesktopIcon) (net : Network) (size : QSize)
    (icon : Icon)
    (h1 : startsWith item.m_source.toString "image://" = false)
    (h2 : startsWith item.m_source.toString "http://" = false)
    (h3 : startsWith item.m_source.toString "https://" = false)
    (hdef : icon =
      if containsSlash (normalisedSource tk item.m_source.toString) then
        Icon.fromFile (normalisedSource tk item.m_source.toString)
      else Icon.fromPlatformTheme (normalisedSource tk item.m_source.toString) item.m_color)
    (hicon : tk.iconIsNull icon = false) :
    (tintColor item =
      if item.m_color.isValid = true ∧ item.m_color ≠ Color.transparent then item.m_color
      else if item.m_selected = true then item.highlightedTextColor else item.textColor) ∧
    ((findIcon tk item net size).img =
        Image.tinted (Image.iconPixmap icon size (iconMode item)) (tintColor item) ↔
      (item.m_isMask = true ∨ tk.iconIsMask icon = true ∨
        (endsWith (normalisedSource tk item.m_source.toString) "-symbolic" = true ∧
          (tintColor item).isValid = true ∧ tintColor item ≠ Color.transparent) ∨
        (containsSlash (normalisedSource tk item.m_source.toString) = true ∧
          item.m_color.isValid = true ∧ item.m_color ≠ Color.transparent))) ∧
    ((findIcon tk item net size).img = Image.iconPixmap icon size (iconMode item) ↔
      ¬ (item.m_isMask = true ∨ tk.iconIsMask icon = true ∨
        (endsWith (normalisedSource tk item.m_source.toString) "-symbolic" = true ∧
          (tintColor item).isValid = true ∧ tintColor item ≠ Color.transparent) ∨
        (containsSlash (normalisedSource tk item.m_source.toString) = true ∧
          item.m_color.isValid = true ∧ item.m_color ≠ Color.transparent))) ∧
    (endsWith (normalisedSource tk item.m_source.toString) "-symbolic" = true →
      item.m_color.isValid = false →
      (if item.m_selected = true then item.highlightedTextColor else item.textColor).isValid =
        true →
      (if item.m_selected = true then item.highlightedTextColor else item.textColor) ≠
        Color.transparent →
      (findIcon tk item net size).img =
        Image.tinted (Image.iconPixmap icon size (iconMode item))
          (if item.m_selected = true then item.highlightedTextColor else item.textColor)) ∧
    (containsSlash (normalisedSource tk item.m_source.toString) = false →
      endsWith (normalisedSource tk item.m_source.toString) "-symbolic" = false →
      ((findIcon tk item net size).img =
          Image.tinted (Image.iconPixmap icon size (iconMode item)) (tintColor item) ↔
        (item.m_isMask = true ∨ tk.iconIsMask icon = true))) := by
  have himg := findIcon_local tk item net size h1 h2 h3 (hdef ▸ hicon)
  rw [← hdef] at himg
  have hcond : shouldTint tk item icon (normalisedSource tk item.m_source.toString)
      (containsSlash (normalisedSource tk item.m_source.toString)) = true ↔
      (item.m_isMask = true ∨ tk.iconIsMask icon = true ∨
        (endsWith (normalisedSource tk item.m_source.toString) "-symbolic" = true ∧
          (tintColor item).isValid = true ∧ tintColor item ≠ Color.transparent) ∨
        (containsSlash (normalisedSource tk item.m_source.toString) = true ∧
          item.m_color.isValid = true ∧ item.m_color ≠ Color.transparent)) := by
    simp only [shouldTint, Bool.or_eq_true, Bool.and_eq_true, decide_eq_true_eq, or_assoc,
      and_assoc]
  have htint : tintColor item =
      if item.m_color.isValid = true ∧ item.m_color ≠ Color.transparent then item.m_color
      else if item.m_selected = true then item.highlightedTextColor else item.textColor := by
    unfold tintColor
    by_cases hv : item.m_color.isValid = true
    · by_cases ht : item.m_color = Color.transparent
      · simp [hv, ht]
      · simp [hv, ht]
    · simp [hv]
  have hiff : (findIcon tk item net size).img =
        Image.tinted (Image.iconPixmap icon size (iconMode item)) (tintColor item) ↔
      shouldTint tk item icon (normalisedSource tk item.m_source.toString)
        (containsSlash (normalisedSource tk item.m_source.toString)) = true := by
    rw [himg]
    constructor
    · intro h
      by_contra hc
      rw [if_neg hc] at h
      exact tinted_ne _ _ h.symm
    · intro h
      rw [if_pos h]
  have hiff2 : (findIcon tk item net size).img = Image.iconPixmap icon size (iconMode item) ↔
      ¬ shouldTint tk item icon (normalisedSource tk item.m_source.toString)
        (containsSlash (normalisedSource tk item.m_source.toString)) = true := by
    rw [himg]
    constructor
    · intro h hc
      rw [if_pos hc] at h
      exact tinted_ne _ _ h
    · intro h
      rw [if_neg h]
  refine ⟨htint, hiff.trans hcond, hiff2.trans (not_congr hcond), ?_, ?_⟩
  · intro hsym hinv hvalid hnt
    have htc : tintColor item =
        if item.m_selected = true then item.highlightedTextColor else item.textColor := by
      rw [htint]
      simp [hinv]
    rw [← htc] at hvalid hnt ⊢
    exact (hiff.trans hcond).2 (Or.inr (Or.inr (Or.inl ⟨hsym, hvalid, hnt⟩)))
  · intro hpath hsym
    rw [hiff.trans hcond]
    simp [hpath, hsym]

/-- C5, amended, at a concrete input: a symbolic theme icon with no colour set under the
dark text colour of the theme. -/
theorem findIcon_tinting_witness :
    (findIcon demoToolkit (demoItem (Variant.string "edit-copy-symbolic")) { requests := [] }
        { wd := 64, ht := 64 }).img =
      Image.tinted
        (Image.iconPixmap (Icon.fromPlatformTheme "edit-copy-symbolic" Color.invalid)
          { wd := 64, ht := 64 } (iconMode (demoItem (Variant.string "edit-copy-symbolic"))))
        (if (demoItem (Variant.string "edit-copy-symbolic")).m_selected = true then
          (demoItem (Variant.string "edit-copy-symbolic")).highlightedTextColor
         else (demoItem (Variant.string "edit-copy-symbolic")).textColor) :=
  (findIcon_tinting demoToolkit (demoItem (Variant.string "edit-copy-symbolic"))
    { requests := [] } { wd := 64, ht := 64 }
    (Icon.fromPlatformTheme "edit-copy-symbolic" Color.invalid)
    (by decide) (by decide) (by decide) (by decide) (by decide)).2.2.2.1
    (by decide) (by decide) (by decide) (by decide)

end Kirigami
